import Mathlib

/-!
Verification of the menu-label inference engine of `saz2xlsx`
(`saz2xlsx/scripts/menu_auto_label.py`), shallowly embedded in Lean 4.

Python strings are modelled as `List Char` (`Str`), raw bytes as `List Nat`
(`Bytes`), floats as exact rationals (`Rat`), and Python dicts as
association lists with assign-overwrite semantics.  The pieces of the
Python standard library the module uses (`urllib.parse`, `difflib`,
string methods) are embedded from CPython's own definitions, restricted
to ASCII case mapping and with `ValueError` branches for malformed
bracketed IPv6 hosts omitted (the module never catches them).
-/

namespace SazML

abbrev Str := List Char
abbrev Bytes := List Nat

def pystr (s : String) : Str := s.data

/-- Python `str` whitespace (the set used by `str.strip` / `str.split`),
ASCII part plus the common Unicode space characters. -/
def pyIsWs (c : Char) : Bool :=
  [0x20, 0x09, 0x0a, 0x0d, 0x0b, 0x0c, 0x1c, 0x1d, 0x1e, 0x1f, 0x85, 0xa0,
   0x1680, 0x2000, 0x2001, 0x2002, 0x2003, 0x2004, 0x2005, 0x2006, 0x2007,
   0x2008, 0x2009, 0x200a, 0x2028, 0x2029, 0x202f, 0x205f, 0x3000].contains c.toNat

/-- ASCII case folding (the only case mapping exercised by the module's data). -/
def pyLowerChar (c : Char) : Char :=
  if 'A' ≤ c ∧ c ≤ 'Z' then Char.ofNat (c.toNat + 32) else c

def pyLower (s : Str) : Str := s.map pyLowerChar

def pyStrip (s : Str) : Str :=
  ((s.dropWhile pyIsWs).reverse.dropWhile pyIsWs).reverse

def pyLstripC0Space (s : Str) : Str :=
  s.dropWhile (fun c => c.toNat ≤ 0x20)

/-- `s.strip(_WHATWG_C0_CONTROL_OR_SPACE)`. -/
def pyStripC0Space (s : Str) : Str :=
  ((pyLstripC0Space s).reverse.dropWhile (fun c => c.toNat ≤ 0x20)).reverse

/-- Index of the first occurrence of `sub` in `s`, counting from `base`. -/
def findSubAux (sub : Str) : Str → Nat → Option Nat
  | [], i => if sub = [] then some i else none
  | s@(_ :: rest), i =>
    if sub.isPrefixOf s then some i else findSubAux sub rest (i + 1)

/-- Python `s.find(sub)` (as an `Option` instead of `-1`). -/
def pyFind (s sub : Str) : Option Nat := findSubAux sub s 0

/-- Python `s.find(sub, start)`. -/
def pyFindFrom (s sub : Str) (start : Nat) : Option Nat :=
  match findSubAux sub (s.drop start) start with
  | some i => some i
  | none => none

def rfindAux (sub : Str) : Str → Nat → Option Nat → Option Nat
  | [], i, best => if sub = [] then some i else best
  | s@(_ :: rest), i, best =>
    rfindAux sub rest (i + 1) (if sub.isPrefixOf s then some i else best)

/-- Python `s.rfind(sub)` (as an `Option` instead of `-1`). -/
def pyRfind (s sub : Str) : Option Nat := rfindAux sub s 0 none

/-- Python `sub in s`. -/
def pyContains (s sub : Str) : Bool := (pyFind s sub).isSome

/-- Python `s.partition(sep)`. -/
def pyPartition (s sep : Str) : Str × Str × Str :=
  match pyFind s sep with
  | some i => (s.take i, sep, s.drop (i + sep.length))
  | none => (s, [], [])

/-- Python `s.split(sep, 1)` for a separator known to occur. -/
def pySplit1 (s sep : Str) : Str × Str :=
  match pyFind s sep with
  | some i => (s.take i, s.drop (i + sep.length))
  | none => (s, [])

def splitSepGo (sep : Str) : Nat → Str → List Str
  | 0, s => [s]
  | fuel + 1, s =>
    match pyFind s sep with
    | none => [s]
    | some i => s.take i :: splitSepGo sep fuel (s.drop (i + sep.length))

/-- Python `s.split(sep)` for a non-empty separator. -/
def pySplitSep (s sep : Str) : List Str := splitSepGo sep (s.length + 1) s

def splitWsGo : Nat → Str → List Str
  | 0, _ => []
  | fuel + 1, s =>
    let s := s.dropWhile pyIsWs
    if s = [] then []
    else s.takeWhile (fun c => ¬ pyIsWs c) :: splitWsGo fuel (s.dropWhile (fun c => ¬ pyIsWs c))

/-- Python `s.split()` (runs of whitespace, empties dropped). -/
def pySplitWs (s : Str) : List Str := splitWsGo (s.length + 1) s

def isLinebreak (c : Char) : Bool :=
  [0x0a, 0x0d, 0x0b, 0x0c, 0x1c, 0x1d, 0x1e, 0x85, 0x2028, 0x2029].contains c.toNat

def splitlinesGo : Str → Str → List Str
  | [], cur => if cur = [] then [] else [cur.reverse]
  | '\x0d' :: '\n' :: rest2, cur => cur.reverse :: splitlinesGo rest2 []
  | c :: rest, cur =>
    if isLinebreak c then cur.reverse :: splitlinesGo rest []
    else splitlinesGo rest (c :: cur)

/-- Python `s.splitlines()`. -/
def pySplitlines (s : Str) : List Str := splitlinesGo s []

/-- Python `sep.join(xs)`. -/
def pyJoin (sep : Str) (xs : List Str) : Str := List.intercalate sep xs

/-- Python dict lookup (`d.get(k)`); dicts are built with `dictSet` so each
key has at most one binding. -/
def dictGet (d : List (Str × Str)) (k : Str) : Option Str :=
  match d.find? (fun p => p.1 == k) with
  | some p => some p.2
  | none => none

/-- Python dict assignment `d[k] = v` (overwrite in place, else append). -/
def dictSet (d : List (Str × Str)) (k v : Str) : List (Str × Str) :=
  if (d.find? (fun p => p.1 == k)).isSome then
    d.map (fun p => if p.1 == k then (k, v) else p)
  else d ++ [(k, v)]

/-- `d.get(k) or d.get(k') or ''` as used for case-variant header lookups. -/
def dictGet2 (d : List (Str × Str)) (k k' : Str) : Str :=
  match dictGet d k with
  | some v => if v = [] then (match dictGet d k' with | some w => w | none => []) else v
  | none => (match dictGet d k' with | some w => w | none => [])

def natOfDigitsAux : Str → Nat → Nat
  | [], acc => acc
  | c :: rest, acc => natOfDigitsAux rest (acc * 10 + (c.toNat - '0'.toNat))

/-- Python `int(s)` for a string of decimal digits. -/
def natOfDigits (s : Str) : Nat := natOfDigitsAux s 0

/-- Python `'%04d' % n` / `f'{n:04d}'` for a natural number. -/
def pad4 (n : Nat) : Str :=
  let d := (Nat.repr n).data
  List.replicate (4 - d.length) '0' ++ d

/-! ### `urllib.parse` (CPython), the subset the module uses -/

/-- `urllib.parse.scheme_chars`. -/
def schemeChars : Str := pystr ("abcdefghijklmnopqrstuvwxyzABCDEFGHIJKLMNOPQRSTUVWXYZ0123456789+-.")

def usesRelative : List Str :=
  [pystr (""), pystr ("ftp"), pystr ("http"), pystr ("gopher"), pystr ("nntp"),
   pystr ("imap"), pystr ("wais"), pystr ("file"), pystr ("https"), pystr ("shttp"),
   pystr ("mms"), pystr ("prospero"), pystr ("rtsp"), pystr ("rtspu"), pystr ("sftp"),
   pystr ("svn"), pystr ("svn+ssh"), pystr ("ws"), pystr ("wss")]

def usesNetloc : List Str :=
  [pystr (""), pystr ("ftp"), pystr ("http"), pystr ("gopher"), pystr ("nntp"),
   pystr ("telnet"), pystr ("imap"), pystr ("wais"), pystr ("file"), pystr ("mms"),
   pystr ("https"), pystr ("shttp"), pystr ("snews"), pystr ("prospero"),
   pystr ("rtsp"), pystr ("rtspu"), pystr ("rsync"), pystr ("svn"),
   pystr ("svn+ssh"), pystr ("sftp"), pystr ("nfs"), pystr ("git"),
   pystr ("git+ssh"), pystr ("ws"), pystr ("wss"), pystr ("itms-services")]

def usesParams : List Str :=
  [pystr (""), pystr ("ftp"), pystr ("hdl"), pystr ("prospero"), pystr ("http"),
   pystr ("imap"), pystr ("https"), pystr ("shttp"), pystr ("rtsp"),
   pystr ("rtspu"), pystr ("sip"), pystr ("sips"), pystr ("mms"),
   pystr ("sftp"), pystr ("tel")]

structure SplitRes where
  scheme : Str
  netloc : Str
  path : Str
  query : Str
  fragment : Str
  deriving DecidableEq, Repr

structure ParseRes where
  scheme : Str
  netloc : Str
  path : Str
  params : Str
  query : Str
  fragment : Str
  deriving DecidableEq, Repr

/-- `urllib.parse._splitnetloc(url, 2)`: the netloc runs to the first
`/`, `?` or `#` at or after position 2. -/
def splitnetloc (url : Str) : Str × Str :=
  let delim := url.length
  let delim := match pyFindFrom url (pystr ("/")) 2 with
    | some i => min delim i
    | none => delim
  let delim := match pyFindFrom url (pystr ("?")) 2 with
    | some i => min delim i
    | none => delim
  let delim := match pyFindFrom url (pystr ("#")) 2 with
    | some i => min delim i
    | none => delim
  ((url.drop 2).take (delim - 2), url.drop delim)

/-- `urllib.parse.urlsplit(url, scheme)` with `allow_fragments=True`.
The `ValueError` raises for unbalanced `[`/`]` in the netloc are not
modelled (the module lets them propagate; no claim exercises them). -/
def urlsplitD (url0 defScheme : Str) : SplitRes :=
  let url1 := pyLstripC0Space url0
  let url := url1.filter (fun c => ¬ (c = '\t' ∨ c = '\x0d' ∨ c = '\n'))
  let defS := (pyStripC0Space defScheme).filter (fun c => ¬ (c = '\t' ∨ c = '\x0d' ∨ c = '\n'))
  let (scheme, url) :=
    match pyFind url (pystr (":")) with
    | some i =>
      if 0 < i ∧ (url.headD ' ').isAlpha ∧ (url.take i).all (fun c => schemeChars.contains c)
      then (pyLower (url.take i), url.drop (i + 1))
      else (defS, url)
    | none => (defS, url)
  let (netloc, url) :=
    if url.take 2 = pystr ("//") then splitnetloc url else ([], url)
  let (url, fragment) :=
    if pyContains url (pystr ("#")) then pySplit1 url (pystr ("#")) else (url, [])
  let (url, query) :=
    if pyContains url (pystr ("?")) then pySplit1 url (pystr ("?")) else (url, [])
  ⟨scheme, netloc, url, query, fragment⟩

/-- `urllib.parse._splitparams`. -/
def splitparams (url : Str) : Str × Str :=
  if pyContains url (pystr ("/")) then
    match pyRfind url (pystr ("/")) with
    | some slash =>
      match pyFindFrom url (pystr (";")) slash with
      | some i => (url.take i, url.drop (i + 1))
      | none => (url, [])
    | none => (url, [])
  else
    match pyFind url (pystr (";")) with
    | some i => (url.take i, url.drop (i + 1))
    | none => (url, [])

/-- `urllib.parse.urlparse(url, scheme)` with `allow_fragments=True`. -/
def urlparseD (url defScheme : Str) : ParseRes :=
  let s := urlsplitD url defScheme
  if usesParams.contains s.scheme ∧ pyContains s.path (pystr (";")) then
    let (p, params) := splitparams s.path
    ⟨s.scheme, s.netloc, p, params, s.query, s.fragment⟩
  else
    ⟨s.scheme, s.netloc, s.path, [], s.query, s.fragment⟩

/-- `urllib.parse.urlparse(url)`. -/
def urlparse (url : Str) : ParseRes := urlparseD url []

/-- `urllib.parse.urlunsplit`. -/
def urlunsplit (scheme netloc url query fragment : Str) : Str :=
  let url :=
    if netloc ≠ [] ∨ (url ≠ [] ∧ url.take 2 = pystr ("//")) then
      pystr ("//") ++ netloc ++
        (if url ≠ [] ∧ url.take 1 ≠ pystr ("/") then '/' :: url else url)
    else url
  let url := if scheme ≠ [] then scheme ++ ':' :: url else url
  let url := if query ≠ [] then url ++ '?' :: query else url
  let url := if fragment ≠ [] then url ++ '#' :: fragment else url
  url

/-- `urllib.parse.urlunparse`. -/
def urlunparse (scheme netloc url params query fragment : Str) : Str :=
  let url := if params ≠ [] then url ++ ';' :: params else url
  urlunsplit scheme netloc url query fragment

/-- `segments[1:-1] = filter(None, segments[1:-1])` on a non-empty list. -/
def filterInnerEmpty (ps : List Str) : List Str :=
  match ps with
  | [] => []
  | [x] => [x]
  | x :: rest =>
    match rest.getLast? with
    | some l => x :: (rest.dropLast.filter (fun s => s ≠ [])) ++ [l]
    | none => [x]

/-- `urllib.parse.urljoin(base, url)`. -/
def urljoin (base url : Str) : Str :=
  if base = [] then url
  else if url = [] then base
  else
    let b := urlparseD base []
    let t := urlparseD url b.scheme
    if t.scheme ≠ b.scheme ∨ ¬ usesRelative.contains t.scheme then url
    else if usesNetloc.contains t.scheme ∧ t.netloc ≠ [] then
      urlunparse t.scheme t.netloc t.path t.params t.query t.fragment
    else
      let netloc := if usesNetloc.contains t.scheme then b.netloc else t.netloc
      if t.path = [] ∧ t.params = [] then
        let query := if t.query = [] then b.query else t.query
        urlunparse t.scheme netloc b.path b.params query t.fragment
      else
        let baseParts0 := pySplitSep b.path (pystr ("/"))
        let baseParts :=
          if baseParts0.getLast? ≠ some [] then baseParts0.dropLast else baseParts0
        let segments :=
          if t.path.take 1 = pystr ("/") then pySplitSep t.path (pystr ("/"))
          else filterInnerEmpty (baseParts ++ pySplitSep t.path (pystr ("/")))
        let resolved := segments.foldl
          (fun acc seg =>
            if seg = pystr ("..") then acc.dropLast
            else if seg = pystr (".") then acc
            else acc ++ [seg]) []
        let resolved :=
          if segments.getLast? = some (pystr (".")) ∨ segments.getLast? = some (pystr ("..")) then
            resolved ++ [[]]
          else resolved
        let joined := pyJoin (pystr ("/")) resolved
        let path := if joined = [] then pystr ("/") else joined
        urlunparse t.scheme netloc path t.params t.query t.fragment

/-! ### Segment normalization and host keys (`menu_auto_label.py`) -/

def isDigitCh (c : Char) : Bool := '0' ≤ c && c ≤ '9'

def isHexCh (c : Char) : Bool :=
  isDigitCh c || ('a' ≤ c && c ≤ 'f') || ('A' ≤ c && c ≤ 'F')

/-- `_NUM = re.compile(r'^\d+$')`. -/
def matchNum (s : Str) : Bool := s != [] && s.all isDigitCh

/-- `_UUID`: 8-4-4-4-12 hex groups, case-insensitive. -/
def matchUUID (s : Str) : Bool :=
  match pySplitSep s (pystr ("-")) with
  | [g1, g2, g3, g4, g5] =>
    g1.length == 8 && g2.length == 4 && g3.length == 4 && g4.length == 4 && g5.length == 12 &&
    (g1 ++ g2 ++ g3 ++ g4 ++ g5).all isHexCh
  | _ => false

/-- `_HEX = re.compile(r'^[0-9a-f]{8,}$', re.I)`. -/
def matchHex8 (s : Str) : Bool := decide (8 ≤ s.length) && s.all isHexCh

def isDateSep (c : Char) : Bool := c == '-' || c == '/'

/-- `_DATE`: four digits, an optional `-` or `/` separator, two digits,
then optionally another optional separator plus two digits. -/
def matchDate (s : Str) : Bool :=
  if (s.take 4).length == 4 && (s.take 4).all isDigitCh then
    let r := s.drop 4
    let r := if isDateSep (r.headD ' ') then r.drop 1 else r
    if (r.take 2).length == 2 && (r.take 2).all isDigitCh then
      match r.drop 2 with
      | [] => true
      | [a, b] => isDigitCh a && isDigitCh b
      | [c, a, b] => isDateSep c && isDigitCh a && isDigitCh b
      | _ => false
    else false
  else false

/-- The server-technology extensions of `re.sub(r'\.(?:jsp|do|php|aspx|html?|cgi|action)$', ...)`. -/
def extList : List Str :=
  [pystr (".jsp"), pystr (".do"), pystr (".php"), pystr (".aspx"),
   pystr (".html"), pystr (".htm"), pystr (".cgi"), pystr (".action")]

def stripExt (s : Str) : Str :=
  match extList.find? (fun e => e.isSuffixOf (pyLower s)) with
  | some e => s.take (s.length - e.length)
  | none => s

/-- `_norm_seg`. -/
def _norm_seg (seg : Str) : Str :=
  let s := pyStrip seg
  if s = [] then []
  else if matchNum s || matchUUID s || matchHex8 s || matchDate s then pystr ("\x7bid\x7d")
  else stripExt s

/-- `_path_segs`. -/
def _path_segs (u : Str) : List Str :=
  let p := (urlparse u).path
  let p := if p = [] then pystr ("/") else p
  ((pySplitSep p (pystr ("/"))).filter (fun x => _norm_seg x ≠ [])).map _norm_seg

/-- `_hostkey`. -/
def _hostkey (hostOrUrl : Str) : Str :=
  let netloc0 := (urlparse hostOrUrl).netloc
  let netloc1 := if netloc0 = [] then hostOrUrl else netloc0
  let netloc2 := pyLower netloc1
  let netloc := if pyContains netloc2 (pystr ("@")) then (pySplit1 netloc2 (pystr ("@"))).2 else netloc2
  let part := pyPartition netloc (pystr (":"))
  let h := part.1
  let p := part.2.2
  if p = pystr ("80") ∨ p = pystr ("443") then h
  else if netloc = [] then h else netloc

/-! ### `difflib.SequenceMatcher` with `isjunk=None` (CPython) -/

/-- `b2j`: character → ascending list of its indices in `b`
(built in index order, so each bucket is ascending). -/
def buildB2jAux : Str → Nat → List (Char × List Nat) → List (Char × List Nat)
  | [], _, acc => acc
  | c :: rest, i, acc =>
    let acc :=
      if (acc.find? (fun p => p.1 == c)).isSome then
        acc.map (fun p => if p.1 == c then (p.1, p.2 ++ [i]) else p)
      else acc ++ [(c, [i])]
    buildB2jAux rest (i + 1) acc

/-- `__chain_b` with `isjunk=None`, `autojunk=True`: popular elements
(appearing in more than 1% of a `b` of length ≥ 200) are dropped. -/
def buildB2j (b : Str) : List (Char × List Nat) :=
  let m := buildB2jAux b 0 []
  let n := b.length
  if 200 ≤ n then
    let ntest := n / 100 + 1
    m.filter (fun p => ¬ ntest < p.2.length)
  else m

def b2jGet (m : List (Char × List Nat)) (c : Char) : List Nat :=
  match m.find? (fun p => p.1 == c) with
  | some p => p.2
  | none => []

/-- One row of the `find_longest_match` dynamic program: scan the `b`-indices
of `a[i]` (already cut at the first index `≥ bhi`, the loop's `break`),
skipping those `< blo` (the loop's `continue`). -/
def flmRow (j2len : Nat → Nat) (i blo : Nat) (js : List Nat) (best0 : Nat × Nat × Nat) :
    (Nat → Nat) × (Nat × Nat × Nat) :=
  js.foldl
    (fun st j =>
      if j < blo then st
      else
        let k := (if j = 0 then 0 else j2len (j - 1)) + 1
        let newj2len := fun x => if x = j then k else st.1 x
        let best := if st.2.2.2 < k then (i + 1 - k, j + 1 - k, k) else st.2
        (newj2len, best))
    ((fun _ => 0), best0)

def flmRowsGo (b2j : List (Char × List Nat)) (blo bhi : Nat) :
    Str → Nat → (Nat → Nat) → Nat × Nat × Nat → Nat × Nat × Nat
  | [], _, _, best => best
  | c :: rest, i, j2len, best =>
    let js := (b2jGet b2j c).takeWhile (fun j => j < bhi)
    let st := flmRow j2len i blo js best
    flmRowsGo b2j blo bhi rest (i + 1) st.1 st.2

def eqAt (a b : Str) (i j : Nat) : Bool :=
  match a.get? i, b.get? j with
  | some x, some y => x == y
  | _, _ => false

def extendBackGo (a b : Str) (alo blo : Nat) : Nat → Nat × Nat × Nat → Nat × Nat × Nat
  | 0, st => st
  | fuel + 1, (besti, bestj, size) =>
    if alo < besti && blo < bestj && eqAt a b (besti - 1) (bestj - 1) then
      extendBackGo a b alo blo fuel (besti - 1, bestj - 1, size + 1)
    else (besti, bestj, size)

def extendFwdGo (a b : Str) (ahi bhi : Nat) (besti bestj : Nat) : Nat → Nat → Nat
  | 0, size => size
  | fuel + 1, size =>
    if besti + size < ahi && bestj + size < bhi && eqAt a b (besti + size) (bestj + size) then
      extendFwdGo a b ahi bhi besti bestj fuel (size + 1)
    else size

/-- `find_longest_match(alo, ahi, blo, bhi)` (`isjunk=None`, so the
junk-extension loops are no-ops and only the plain extensions run). -/
def findLongestMatch (a b : Str) (b2j : List (Char × List Nat)) (alo ahi blo bhi : Nat) :
    Nat × Nat × Nat :=
  let best := flmRowsGo b2j blo bhi ((a.take ahi).drop alo) alo (fun _ => 0) (alo, blo, 0)
  let best := extendBackGo a b alo blo best.1 best
  let size := extendFwdGo a b ahi bhi best.1 best.2.1 (a.length + b.length) best.2.2
  (best.1, best.2.1, size)

/-- Total size of the matching blocks of `get_matching_blocks` (the queue
order and the adjacent-block merge do not affect the sum).  `fuel` bounds
the recursion depth; `a.length + b.length + 1` is always enough. -/
def matchBlocksTotal (a b : Str) (b2j : List (Char × List Nat)) :
    Nat → Nat → Nat → Nat → Nat → Nat
  | 0, _, _, _, _ => 0
  | fuel + 1, alo, ahi, blo, bhi =>
    let m := findLongestMatch a b b2j alo ahi blo bhi
    let i := m.1
    let j := m.2.1
    let k := m.2.2
    if k = 0 then 0
    else
      (if alo < i ∧ blo < j then matchBlocksTotal a b b2j fuel alo i blo j else 0) + k +
      (if i + k < ahi ∧ j + k < bhi then matchBlocksTotal a b b2j fuel (i + k) ahi (j + k) bhi else 0)

/-- `SequenceMatcher(None, a, b).ratio()`. -/
def ratioOf (a b : Str) : Rat :=
  let m := buildB2j b
  let nmatched := matchBlocksTotal a b m (a.length + b.length + 1) 0 a.length 0 b.length
  let len := a.length + b.length
  if len ≠ 0 then (2 * (nmatched : Rat)) / (len : Rat) else 1

/-! ### `path_similarity` -/

/-- Python `set(...)` over a list, modelled as the first-occurrence
dedup (only membership and cardinality are consumed). -/
def distinctL (l : List Str) : List Str :=
  l.foldl (fun acc x => if acc.contains x then acc else acc ++ [x]) []

/-- `path_similarity(a_url, b_url)`: 0-100 score. -/
def path_similarity (aUrl bUrl : Str) : Rat :=
  if aUrl = [] ∨ bUrl = [] then 0
  else if aUrl = bUrl then 100
  else
    let aSegs := _path_segs aUrl
    let bSegs := _path_segs bUrl
    if aSegs = [] ∧ bSegs = [] then 0
    else
      let sa := distinctL aSegs
      let sb := distinctL bSegs
      let inter := (sa.filter (fun x => sb.contains x)).length
      let union := max 1 (sa.length + (sb.filter (fun x => ¬ sa.contains x)).length)
      let jacc : Rat := (inter : Rat) / (union : Rat)
      let lastMatch : Rat :=
        if aSegs ≠ [] ∧ bSegs ≠ [] ∧ aSegs.getLast? = bSegs.getLast? then 1 else 0
      let aPath := pyJoin (pystr ("/")) aSegs
      let bPath := pyJoin (pystr ("/")) bSegs
      let suffix : Rat := if bPath.isSuffixOf aPath ∨ aPath.isSuffixOf bPath then 1 else 0
      let sm := ratioOf aPath bPath
      let score := jacc * 40 + lastMatch * 20 + suffix * 15 + sm * 25
      min 100 score

/-! ### HTML text utilities (`_clean_text`, `_attr_get`, `<base href>`) -/

/-- `_TAG_STRIP.sub('', s)` for `_TAG_STRIP = re.compile(r'<[^>]+>')`. -/
def tagStripGo : Nat → Str → Str
  | 0, s => s
  | _ + 1, [] => []
  | fuel + 1, '<' :: rest =>
    let inner := rest.takeWhile (fun c => c ≠ '>')
    let after := rest.drop inner.length
    if inner ≠ [] ∧ after ≠ [] then tagStripGo fuel (after.drop 1)
    else '<' :: tagStripGo fuel rest
  | fuel + 1, c :: rest => c :: tagStripGo fuel rest

def tagStrip (s : Str) : Str := tagStripGo (s.length + 1) s

/-- `_WS.sub(' ', s)` for `_WS = re.compile(r'\s+')`. -/
def wsCollapseGo : Nat → Str → Str
  | 0, s => s
  | _ + 1, [] => []
  | fuel + 1, c :: rest =>
    if pyIsWs c then ' ' :: wsCollapseGo fuel (rest.dropWhile pyIsWs)
    else c :: wsCollapseGo fuel rest

def wsCollapse (s : Str) : Str := wsCollapseGo (s.length + 1) s

/-- The named entities recognized by the embedding of `html.unescape`
(the full HTML5 table is cut down to the common ones; all concrete inputs
in this development are entity-free or use only these). -/
def namedEntities : List (Str × Char) :=
  [(pystr ("amp"), '&'), (pystr ("lt"), '<'), (pystr ("gt"), '>'),
   (pystr ("quot"), '"'), (pystr ("apos"), '\''), (pystr ("nbsp"), '\xa0')]

def charOfRef (n : Nat) : Char :=
  if (0xD800 ≤ n ∧ n ≤ 0xDFFF) ∨ 0x10FFFF < n then '\uFFFD' else Char.ofNat n

/-- `html.unescape` (numeric references plus `namedEntities`). -/
def unescapeGo : Nat → Str → Str
  | 0, s => s
  | _ + 1, [] => []
  | fuel + 1, '&' :: rest =>
    if rest.take 1 = pystr ("#") then
      let body := rest.drop 1
      let isHex := body.take 1 = pystr ("x") ∨ body.take 1 = pystr ("X")
      let digs := if isHex then (body.drop 1).takeWhile isHexCh else body.takeWhile isDigitCh
      if digs = [] then '&' :: unescapeGo fuel rest
      else
        let afterPos := (if isHex then 2 else 1) + digs.length
        let after := rest.drop afterPos
        let after := if after.take 1 = pystr (";") then after.drop 1 else after
        let n := if isHex then digs.foldl (fun a c =>
            a * 16 + (if isDigitCh c then c.toNat - '0'.toNat
                      else if 'a' ≤ c then c.toNat - 'a'.toNat + 10
                      else c.toNat - 'A'.toNat + 10)) 0
          else natOfDigits digs
        charOfRef n :: unescapeGo fuel after
    else
      match namedEntities.find? (fun e => (e.1 ++ pystr (";")).isPrefixOf rest) with
      | some e => e.2 :: unescapeGo fuel (rest.drop (e.1.length + 1))
      | none => '&' :: unescapeGo fuel rest
  | fuel + 1, c :: rest => c :: unescapeGo fuel rest

def htmlUnescape (s : Str) : Str := unescapeGo (s.length + 1) s

/-- `_clean_text`. -/
def _clean_text (html : Str) : Str :=
  htmlUnescape (pyStrip (wsCollapse (tagStrip html)))

/-- The unquoted alternative `[^\s>]+` of `_attr_get`'s value group. -/
def unquotedRun (s : Str) (q : Nat) : Option Str :=
  let run := (s.drop q).takeWhile (fun c => ¬ pyIsWs c ∧ c ≠ '>')
  if run = [] then none else some run

/-- The value group of `_attr_get` tried at position `q`
(alternatives in order: `".*?"`, `'.*?'`, `[^\s>]+`). -/
def attrGroupAt (s : Str) (q : Nat) : Option Str :=
  match s.get? q with
  | none => none
  | some c =>
    if c = '"' then
      match pyFind (s.drop (q + 1)) (pystr ("\"")) with
      | some j => some ('"' :: (s.drop (q + 1)).take j ++ ['"'])
      | none => unquotedRun s q
    else if c = '\'' then
      match pyFind (s.drop (q + 1)) (pystr ("'")) with
      | some j => some ('\'' :: (s.drop (q + 1)).take j ++ ['\''])
      | none => unquotedRun s q
    else unquotedRun s q

/-- One attempt of `_attr_get`'s search at start position `p`. -/
def attrTryAt (s name : Str) (p : Nat) : Option Str :=
  if (pyLower name).isPrefixOf (pyLower (s.drop p)) then
    let i := p + name.length
    let ws1 := ((s.drop i).takeWhile pyIsWs).length
    match s.get? (i + ws1) with
    | some '=' =>
      let j := i + ws1 + 1
      let ws2 := ((s.drop j).takeWhile pyIsWs).length
      attrGroupAt s (j + ws2)
    | _ => none
  else none

def attrSearchGo (s name : Str) : Nat → Nat → Option Str
  | 0, _ => none
  | fuel + 1, p =>
    match attrTryAt s name p with
    | some v => some v
    | none => if p < s.length then attrSearchGo s name fuel (p + 1) else none

/-- `_attr_get(attr_html, name)`. -/
def _attr_get (attrHtml name : Str) : Str :=
  match attrSearchGo attrHtml name (attrHtml.length + 1) 0 with
  | some v =>
    let v :=
      if v ≠ [] ∧ (v.headD ' ' = '"' ∨ v.headD ' ' = '\'') ∧ v.getLast? = some (v.headD ' ')
      then (v.drop 1).dropLast else v
    pyStrip v
  | none => []

/-- Python `a or b` on strings. -/
def pyOr (a b : Str) : Str := if a = [] then b else a

/-- The `href=["\']([^"\']+)["\']` tail of the `<base>` regex, at `r`. -/
def hrefValAt (s : Str) (r : Nat) : Option Str :=
  if (pystr ("href=")).isPrefixOf (pyLower (s.drop r)) then
    match s.get? (r + 5) with
    | some q =>
      if q = '"' ∨ q = '\'' then
        let inner := (s.drop (r + 6)).takeWhile (fun c => c ≠ '"' ∧ c ≠ '\'')
        if inner ≠ [] ∧ (s.get? (r + 6 + inner.length)).isSome then some inner else none
      else none
    | none => none
  else none

def baseScanDown (s : Str) (lo : Nat) : Nat → Nat → Option Str
  | 0, _ => none
  | fuel + 1, r =>
    match hrefValAt s r with
    | some v => some v
    | none => if lo < r then baseScanDown s lo fuel (r - 1) else none

/-- One attempt of the `<base[^>]+href=...` search at `p`; the greedy
`[^>]+` prefers the right-most feasible `href=`. -/
def baseFindAt (s : Str) (p : Nat) : Option Str :=
  if (pystr ("<base")).isPrefixOf (pyLower (s.drop p)) then
    let gt := ((s.drop (p + 5)).takeWhile (fun c => c ≠ '>')).length
    let lim := p + 5 + gt
    if p + 6 ≤ lim then baseScanDown s (p + 6) (lim + 1) lim else none
  else none

def baseSearchGo (s : Str) : Nat → Nat → Option Str
  | 0, _ => none
  | fuel + 1, p =>
    match baseFindAt s p with
    | some v => some v
    | none => if p < s.length then baseSearchGo s fuel (p + 1) else none

/-- `re.search(r'<base[^>]+href=["\']([^"\']+)["\']', html, re.I)`. -/
def baseHrefOf (html : Str) : Option Str := baseSearchGo html (html.length + 1) 0

/-- `_resolve_candidate_url(candidate, current_url, html)`. -/
def _resolve_candidate_url (candidate currentUrl html : Str) : Str :=
  if candidate = [] then []
  else if (pystr ("javascript:")).isPrefixOf candidate ∨ (pystr ("#")).isPrefixOf candidate then []
  else
    let base :=
      match baseHrefOf html with
      | some b => pyStrip b
      | none => currentUrl
    urljoin base candidate

/-! ### Anchor extraction -/

/-- Python `\w` (ASCII model; the module only feeds it HTML tag contexts). -/
def isWordCh (c : Char) : Bool := c.isAlphanum || c = '_'

/-- Case-insensitive substring search from `start`. -/
def findCiFrom (s sub : Str) (start : Nat) : Option Nat :=
  findSubAux (pyLower sub) (pyLower (s.drop start)) start

/-- The anchor matches of `re.finditer(r'<a\b([^>]+)>(.*?)</a>', html, re.I|re.S)`:
a list of `(attrs, inner)` pairs in match order. -/
def anchorMatchesGo (s : Str) : Nat → Nat → List (Str × Str) → List (Str × Str)
  | 0, _, acc => acc
  | fuel + 1, p, acc =>
    if p < s.length then
      if (pystr ("<a")).isPrefixOf (pyLower (s.drop p)) then
        let attrs := (s.drop (p + 2)).takeWhile (fun c => c ≠ '>')
        if attrs ≠ [] ∧ ¬ isWordCh (attrs.headD ' ') ∧
           (s.get? (p + 2 + attrs.length)).isSome then
          let q := p + 2 + attrs.length + 1
          match findCiFrom s (pystr ("</a>")) q with
          | some j => anchorMatchesGo s fuel (j + 4) (acc ++ [(attrs, (s.take j).drop q)])
          | none => anchorMatchesGo s fuel (p + 1) acc
        else anchorMatchesGo s fuel (p + 1) acc
      else anchorMatchesGo s fuel (p + 1) acc
    else acc

def anchorMatches (html : Str) : List (Str × Str) :=
  anchorMatchesGo html (html.length + 1) 0 []

/-- `_extract_anchor_candidates(html, current_url)`. -/
def _extract_anchor_candidates (html currentUrl : Str) : List (Str × Str) :=
  (anchorMatches html).foldl
    (fun out m =>
      let attrs := m.1
      let inner := m.2
      let href := _attr_get attrs (pystr ("href"))
      let label := pyOr (_clean_text inner)
        (pyOr (_attr_get attrs (pystr ("title"))) (_attr_get attrs (pystr ("aria-label"))))
      if href ≠ [] ∧ label ≠ [] then
        let url := _resolve_candidate_url href currentUrl html
        if url ≠ [] then out ++ [(pyStrip label, url)] else out
      else out)
    []

/-! ### Inline-script navigation (`onclick="func()"` resolution) -/

def ciPrefixAt (s sub : Str) (p : Nat) : Bool :=
  (pyLower sub).isPrefixOf (pyLower (s.drop p))

def skipWs (s : Str) (i : Nat) : Nat := i + ((s.drop i).takeWhile pyIsWs).length

def isQuoteCh (c : Char) : Bool := c == '"' || c == '\''

/-- Generic leftmost-match search: try `f` at `p`, `p+1`, ... up to `maxP`. -/
def scanFirst (f : Nat → Option α) (maxP : Nat) : Nat → Nat → Option α
  | 0, _ => none
  | fuel + 1, p =>
    match f p with
    | some v => some v
    | none => if p < maxP then scanFirst f maxP fuel (p + 1) else none

/-- One `_SCRIPT_BLOCKS` match attempt at `p`: `<script\b[^>]*>(.*?)</script>`,
returning the block content and the match end. -/
def scriptBlockTryAt (html : Str) (p : Nat) : Option (Str × Nat) :=
  if ciPrefixAt html (pystr ("<script")) p then
    let boundary := match html.get? (p + 7) with
      | some c => !(isWordCh c)
      | none => false
    let attrs := (html.drop (p + 7)).takeWhile (fun c => c ≠ '>')
    if boundary && (html.get? (p + 7 + attrs.length) == some '>') then
      let cstart := p + 8 + attrs.length
      match findCiFrom html (pystr ("</script>")) cstart with
      | some j => some ((html.take j).drop cstart, j + 9)
      | none => none
    else none
  else none

def scriptBlocksGo (html : Str) : Nat → Nat → List Str → List Str
  | 0, _, acc => acc
  | fuel + 1, p, acc =>
    match scriptBlockTryAt html p with
    | some (blk, e) => scriptBlocksGo html fuel e (acc ++ [blk])
    | none => if p < html.length then scriptBlocksGo html fuel (p + 1) acc else acc

/-- The inline `<script>` block contents, in document order. -/
def scriptBlocks (html : Str) : List Str := scriptBlocksGo html (html.length + 1) 0 []

/-- Shared tail `\s*\([^)]*\)\s*(=>\s*)?\{(.*?)\}` of the three
function-body patterns (`arrow` asks for the `=>`). -/
def fnArgsBody (blk : Str) (i0 : Nat) (arrow : Bool) : Option Str :=
  let i := skipWs blk i0
  if blk.get? i = some '(' then
    let args := (blk.drop (i + 1)).takeWhile (fun c => c ≠ ')')
    if blk.get? (i + 1 + args.length) = some ')' then
      let i := skipWs blk (i + 2 + args.length)
      let iArrow :=
        if arrow then
          if ciPrefixAt blk (pystr ("=>")) i then some (skipWs blk (i + 2)) else none
        else some i
      match iArrow with
      | some i =>
        if blk.get? i = some '{' then
          let body := (blk.drop (i + 1)).takeWhile (fun c => c ≠ '}')
          if blk.get? (i + 1 + body.length) = some '}' then some body else none
        else none
      | none => none
    else none
  else none

/-- `function\s+NAME\s*\([^)]*\)\s*\{(.*?)\}` tried at `p` (re.I|re.S). -/
def fnBodyPat1At (blk name : Str) (p : Nat) : Option Str :=
  if ciPrefixAt blk (pystr ("function")) p then
    let ws := ((blk.drop (p + 8)).takeWhile pyIsWs).length
    if ws = 0 then none
    else
      let i := p + 8 + ws
      if ciPrefixAt blk name i then fnArgsBody blk (i + name.length) false else none
  else none

/-- `NAME\s*=\s*function\s*\([^)]*\)\s*\{(.*?)\}` tried at `p`. -/
def fnBodyPat2At (blk name : Str) (p : Nat) : Option Str :=
  if ciPrefixAt blk name p then
    let i := skipWs blk (p + name.length)
    if blk.get? i = some '=' then
      let i := skipWs blk (i + 1)
      if ciPrefixAt blk (pystr ("function")) i then fnArgsBody blk (i + 8) false else none
    else none
  else none

/-- `(?:const|let|var)\s+NAME\s*=\s*\([^)]*\)\s*=>\s*\{(.*?)\}` tried at `p`. -/
def fnBodyPat3At (blk name : Str) (p : Nat) : Option Str :=
  let kw :=
    if ciPrefixAt blk (pystr ("const")) p then some 5
    else if ciPrefixAt blk (pystr ("let")) p then some 3
    else if ciPrefixAt blk (pystr ("var")) p then some 3
    else none
  match kw with
  | some k =>
    let ws := ((blk.drop (p + k)).takeWhile pyIsWs).length
    if ws = 0 then none
    else
      let i := p + k + ws
      if ciPrefixAt blk name i then
        let i := skipWs blk (i + name.length)
        if blk.get? i = some '=' then fnArgsBody blk (skipWs blk (i + 1)) true else none
      else none
  | none => none

def findFnBodyInBlocks (name : Str) : List Str → Str
  | [] => []
  | blk :: rest =>
    match scanFirst (fnBodyPat1At blk name) blk.length (blk.length + 1) 0 with
    | some b => b
    | none =>
      match scanFirst (fnBodyPat2At blk name) blk.length (blk.length + 1) 0 with
      | some b => b
      | none =>
        match scanFirst (fnBodyPat3At blk name) blk.length (blk.length + 1) 0 with
        | some b => b
        | none => findFnBodyInBlocks name rest

/-- `_find_function_body(html, name)`. -/
def _find_function_body (html name : Str) : Str :=
  if html = [] ∨ name = [] then []
  else findFnBodyInBlocks name (scriptBlocks html)

/-- `\s*=\s*["\']([^"\']+)["\']` at `i`; returns the group and the
position after the closing quote. -/
def eqQuotedAfter (s : Str) (i0 : Nat) : Option (Str × Nat) :=
  let i := skipWs s i0
  if s.get? i = some '=' then
    let i := skipWs s (i + 1)
    match s.get? i with
    | some q =>
      if isQuoteCh q then
        let inner := (s.drop (i + 1)).takeWhile (fun c => ¬ isQuoteCh c)
        if inner ≠ [] ∧ (s.get? (i + 1 + inner.length)).isSome then
          some (inner, i + 2 + inner.length)
        else none
      else none
    | none => none
  else none

/-- `location\.(?:href|assign|replace)\s*=\s*["\']([^"\']+)["\']` at `p`. -/
def jsUrlTripAt (body : Str) (p : Nat) : Option Str :=
  if ciPrefixAt body (pystr ("location.")) p then
    let i := p + 9
    let tryA := fun (a : Str) =>
      if ciPrefixAt body a i then (eqQuotedAfter body (i + a.length)).map (fun r => r.1) else none
    match tryA (pystr ("href")) with
    | some v => some v
    | none =>
      match tryA (pystr ("assign")) with
      | some v => some v
      | none => tryA (pystr ("replace"))
  else none

/-- `document\.location\s*=\s*["\']([^"\']+)["\']` at `p`. -/
def jsUrlDocAt (body : Str) (p : Nat) : Option Str :=
  if ciPrefixAt body (pystr ("document.location")) p then
    (eqQuotedAfter body (p + 17)).map (fun r => r.1)
  else none

/-- `window\.open\s*\(\s*["\']([^"\']+)["\']` at `p`. -/
def jsUrlOpenAt (body : Str) (p : Nat) : Option Str :=
  if ciPrefixAt body (pystr ("window.open")) p then
    let i := skipWs body (p + 11)
    if body.get? i = some '(' then
      let i := skipWs body (i + 1)
      match body.get? i with
      | some q =>
        if isQuoteCh q then
          let inner := (body.drop (i + 1)).takeWhile (fun c => ¬ isQuoteCh c)
          if inner ≠ [] ∧ (body.get? (i + 1 + inner.length)).isSome then some inner else none
        else none
      | none => none
    else none
  else none

/-- The `[^;]*?\.submit\s*\(` tail of the form-action pattern, scanned from `k`. -/
def submitScan (body : Str) : Nat → Nat → Bool
  | 0, _ => false
  | fuel + 1, k =>
    if ciPrefixAt body (pystr (".submit")) k ∧
       (body.get? (skipWs body (k + 7)) = some '(') then true
    else
      match body.get? k with
      | some c => if c = ';' then false else submitScan body fuel (k + 1)
      | none => false

/-- `\.action\s*=\s*["\']([^"\']+)["\']\s*;[^;]*?\.submit\s*\(` at `p`. -/
def jsUrlActionAt (body : Str) (p : Nat) : Option Str :=
  if ciPrefixAt body (pystr (".action")) p then
    match eqQuotedAfter body (p + 7) with
    | some (inner, e) =>
      let j := skipWs body e
      if body.get? j = some ';' ∧ submitScan body (body.length + 1) (j + 1) then some inner
      else none
    | none => none
  else none

/-- `_extract_url_from_js_body(body)`. -/
def _extract_url_from_js_body (body : Str) : Str :=
  if body = [] then []
  else
    match scanFirst (jsUrlTripAt body) body.length (body.length + 1) 0 with
    | some v => v
    | none =>
      match scanFirst (jsUrlDocAt body) body.length (body.length + 1) 0 with
      | some v => v
      | none =>
        match scanFirst (jsUrlOpenAt body) body.length (body.length + 1) 0 with
        | some v => v
        | none =>
          match scanFirst (jsUrlActionAt body) body.length (body.length + 1) 0 with
          | some v => v
          | none => []

/-- The `\([^"\']*?\)\s*["\']` tail of `_ONCLICK_FUNC_CALL`, scanned from `k`
(the lazy run may absorb a `)` whose continuation fails). -/
def parenScanGo (s : Str) : Nat → Nat → Option Nat
  | 0, _ => none
  | fuel + 1, k =>
    match s.get? k with
    | none => none
    | some c =>
      if isQuoteCh c then none
      else if c = ')' then
        let u := skipWs s (k + 1)
        match s.get? u with
        | some q2 => if isQuoteCh q2 then some (u + 1) else parenScanGo s fuel (k + 1)
        | none => parenScanGo s fuel (k + 1)
      else parenScanGo s fuel (k + 1)

/-- One `_ONCLICK_FUNC_CALL` match attempt at `p`:
`onclick\s*=\s*["\']\s*([A-Za-z_$][\w$]*)\s*\([^"\']*?\)\s*["\']` (re.I);
returns the function name and the match end. -/
def onclickCallTryAt (s : Str) (p : Nat) : Option (Str × Nat) :=
  if ciPrefixAt s (pystr ("onclick")) p then
    let i := skipWs s (p + 7)
    if s.get? i = some '=' then
      let i := skipWs s (i + 1)
      match s.get? i with
      | some q =>
        if isQuoteCh q then
          let i := skipWs s (i + 1)
          match s.get? i with
          | some c0 =>
            if c0.isAlpha ∨ c0 = '_' ∨ c0 = '$' then
              let run := (s.drop (i + 1)).takeWhile (fun c => isWordCh c || c == '$')
              let j := skipWs s (i + 1 + run.length)
              if s.get? j = some '(' then
                (parenScanGo s (s.length + 1) (j + 1)).map (fun e => (c0 :: run, e))
              else none
            else none
          | none => none
        else none
      | none => none
    else none
  else none

def onclickCallsGo (s : Str) : Nat → Nat → List Str → List Str
  | 0, _, acc => acc
  | fuel + 1, p, acc =>
    match onclickCallTryAt s p with
    | some (name, e) => onclickCallsGo s fuel e (acc ++ [name])
    | none => if p < s.length then onclickCallsGo s fuel (p + 1) acc else acc

/-- `_ONCLICK_FUNC_CALL.findall(html)` in match order. -/
def onclickCalls (html : Str) : List Str := onclickCallsGo html (html.length + 1) 0 []

/-- `re.search(rf'\b{name}\s*\(', onclick)` tried at `p` — case-sensitive.
The embedding takes the name's first character as a word character (true
for every name producible here except ones starting with `$`, whose raw
interpolation into the pattern has no faithful reading anyway). -/
def nameCallAt (onclick name : Str) (p : Nat) : Option Unit :=
  if name.isPrefixOf (onclick.drop p) ∧
     (p = 0 ∨ ¬ isWordCh (onclick.getD (p - 1) ' ')) ∧
     onclick.get? (skipWs onclick (p + name.length)) = some '(' then some ()
  else none

def nameCallSearch (onclick name : Str) : Bool :=
  (scanFirst (nameCallAt onclick name) onclick.length (onclick.length + 1) 0).isSome

/-- `_extract_onclick_function_candidates(html, current_url)`.  Python
iterates `set(findall(...))`; CPython's string-set order is modelled as
first-occurrence order (it only affects emission order when one anchor's
`onclick` calls several extracted functions). -/
def _extract_onclick_function_candidates (html currentUrl : Str) : List (Str × Str) :=
  if html = [] then []
  else
    let funcNames := distinctL (onclickCalls html)
    if funcNames = [] then []
    else
      let fnUrl : List (Str × Str) := funcNames.foldl
        (fun acc name =>
          let body := _find_function_body html name
          let url := _extract_url_from_js_body body
          if url ≠ [] then acc ++ [(name, _resolve_candidate_url url currentUrl html)] else acc)
        []
      if fnUrl = [] then []
      else
        (anchorMatches html).foldl
          (fun out m =>
            let attrs := m.1
            let inner := m.2
            let onclick := _attr_get attrs (pystr ("onclick"))
            if onclick = [] then out
            else
              fnUrl.foldl
                (fun out2 nu =>
                  if nu.2 = [] then out2
                  else if nameCallSearch onclick nu.1 then
                    let label := pyOr (_clean_text inner)
                      (pyOr (_attr_get attrs (pystr ("title"))) (_attr_get attrs (pystr ("aria-label"))))
                    if label ≠ [] then out2 ++ [(pyStrip label, nu.2)] else out2
                  else out2)
                out)
          []

/-! ### Non-anchor click-navigation extraction -/

def urlvalCh (c : Char) : Bool := ¬ pyIsWs c && c ≠ '"' && c ≠ '\''

/-- `_URLVAL` tried at `i` (alternatives in pattern order); returns the
matched (captured) text, whose length is the number of characters consumed. -/
def urlvalAt (s : Str) (i : Nat) : Option Str :=
  let rest := s.drop i
  let alt1 :=
    (if ciPrefixAt s (pystr ("https://")) i then some 8
     else if ciPrefixAt s (pystr ("http://")) i then some 7
     else if rest.take 2 = pystr ("//") then some 2
     else none).bind
      (fun k =>
        let run := (rest.drop k).takeWhile urlvalCh
        if run = [] then none else some (rest.take (k + run.length)))
  match alt1 with
  | some v => some v
  | none =>
    let tryPre := fun (pre : Str) =>
      if pre.isPrefixOf rest then
        let run := (rest.drop pre.length).takeWhile urlvalCh
        if run = [] then none else some (rest.take (pre.length + run.length))
      else none
    match tryPre (pystr ("/")) with
    | some v => some v
    | none =>
      match tryPre (pystr ("./")) with
      | some v => some v
      | none =>
        match tryPre (pystr ("../")) with
        | some v => some v
        | none => tryPre (pystr ("?"))

/-- `["\'](URLVAL)["\']` at `i`; returns the group and the position after
the closing quote. -/
def quotedUrlvalAt (s : Str) (i : Nat) : Option (Str × Nat) :=
  match s.get? i with
  | some q =>
    if isQuoteCh q then
      match urlvalAt s (i + 1) with
      | some v =>
        match s.get? (i + 1 + v.length) with
        | some q2 => if isQuoteCh q2 then some (v, i + 2 + v.length) else none
        | none => none
      | none => none
    else none
  | none => none

/-- The trailing lazy `[^\'"]*?[\'"]`: position one past the first quote
at or after `i`. -/
def firstQuoteFrom (s : Str) (i : Nat) : Option Nat :=
  let run := (s.drop i).takeWhile (fun c => ¬ isQuoteCh c)
  if (s.get? (i + run.length)).isSome then some (i + run.length + 1) else none

/-- `\s*=\s*` at `i` (position after). -/
def eqConnectorAt (s : Str) (i : Nat) : Option Nat :=
  let j := skipWs s i
  if s.get? j = some '=' then some (skipWs s (j + 1)) else none

/-- `\s*\(\s*` at `i` (position after). -/
def parenConnectorAt (s : Str) (i : Nat) : Option Nat :=
  let j := skipWs s i
  if s.get? j = some '(' then some (skipWs s (j + 1)) else none

/-- Core of ONCLICK_PATS[0]: `location\.(?:href|assign|replace)\s*=\s*`. -/
def onclickCoreA (s : Str) (x : Nat) : Option Nat :=
  if ciPrefixAt s (pystr ("location.")) x then
    let i := x + 9
    let tryA := fun (a : Str) =>
      if ciPrefixAt s a i then eqConnectorAt s (i + a.length) else none
    match tryA (pystr ("href")) with
    | some r => some r
    | none =>
      match tryA (pystr ("assign")) with
      | some r => some r
      | none => tryA (pystr ("replace"))
  else none

/-- Core of ONCLICK_PATS[1]: `window\.open\s*\(\s*`. -/
def onclickCoreB (s : Str) (x : Nat) : Option Nat :=
  if ciPrefixAt s (pystr ("window.open")) x then parenConnectorAt s (x + 11) else none

/-- Core of ONCLICK_PATS[2]: `(?:router\.push|navigate|go)\s*\(\s*`. -/
def onclickCoreC (s : Str) (x : Nat) : Option Nat :=
  let tryA := fun (a : Str) =>
    if ciPrefixAt s a x then parenConnectorAt s (x + a.length) else none
  match tryA (pystr ("router.push")) with
  | some r => some r
  | none =>
    match tryA (pystr ("navigate")) with
    | some r => some r
    | none => tryA (pystr ("go"))

/-- The lazy `[^\'"]*?` region scan: try the continuation at each
position, stopping at the first quote. -/
def innerScanGo (s : Str) (cont : Nat → Option α) : Nat → Nat → Option α
  | 0, _ => none
  | fuel + 1, x =>
    match cont x with
    | some r => some r
    | none =>
      match s.get? x with
      | none => none
      | some c => if isQuoteCh c then none else innerScanGo s cont fuel (x + 1)

/-- One ONCLICK_PATS match attempt at `p` for the given core; returns
`(url, start, end)` of the match. -/
def onclickNavTryAt (s : Str) (core : Str → Nat → Option Nat) (p : Nat) :
    Option (Str × Nat × Nat) :=
  if ciPrefixAt s (pystr ("onclick")) p then
    let i := skipWs s (p + 7)
    if s.get? i = some '=' then
      let i := skipWs s (i + 1)
      match s.get? i with
      | some q =>
        if isQuoteCh q then
          innerScanGo s
            (fun x =>
              -- the `\b` before the core: previous character must be non-word
              if ¬ isWordCh (s.getD (x - 1) ' ') then
                (core s x).bind (fun posq =>
                  (quotedUrlvalAt s posq).bind (fun vu =>
                    (firstQuoteFrom s vu.2).map (fun e => (vu.1, p, e))))
              else none)
            (s.length + 1) (i + 1)
        else none
      | none => none
    else none
  else none

def finditerGo (f : Nat → Option (α × Nat)) (len : Nat) : Nat → Nat → List α → List α
  | 0, _, acc => acc
  | fuel + 1, p, acc =>
    match f p with
    | some (v, e) => finditerGo f len fuel e (acc ++ [v])
    | none => if p < len then finditerGo f len fuel (p + 1) acc else acc

def finditerAll (f : Nat → Option (α × Nat)) (len : Nat) : List α :=
  finditerGo f len (len + 1) 0 []

/-- Python slice `s[a:b]`. -/
def pySlice (s : Str) (a b : Nat) : Str := (s.take b).drop a

/-- `<([a-z0-9]+)[^>]*>(.*?)</\1>` tried at `p`: the greedy tag name
backtracks from the longest alphanumeric run. -/
def tagPairLenGo (s : Str) (p : Nat) (run : Str) : Nat → Option Str
  | 0 => none
  | tlen + 1 =>
    let tag := run.take (tlen + 1)
    let attrs := (s.drop (p + 1 + tlen + 1)).takeWhile (fun c => c ≠ '>')
    let cstart := p + 1 + (tlen + 1) + attrs.length + 1
    match
      (if (s.get? (p + 1 + tlen + 1 + attrs.length) = some '>') then
        findCiFrom s (pystr ("</") ++ tag ++ pystr (">")) cstart
      else none) with
    | some j => some ((s.take j).drop cstart)
    | none => tagPairLenGo s p run tlen

def tagPairTryAt (s : Str) (p : Nat) : Option Str :=
  if s.get? p = some '<' then
    let run := (s.drop (p + 1)).takeWhile (fun c => c.isAlphanum)
    if run = [] then none else tagPairLenGo s p run run.length
  else none

/-- `re.search(r'<([a-z0-9]+)[^>]*>(.*?)</\1>', snippet, re.I|re.S)`,
returning the inner group. -/
def tagPairSearch (snippet : Str) : Option Str :=
  scanFirst (tagPairTryAt snippet) snippet.length (snippet.length + 1) 0

/-- Emission step shared by the snippet-labelled extractors. -/
def emitSnippet (html currentUrl : Str) (out : List (Str × Str))
    (m : Str × Nat × Nat) (margin : Nat) : List (Str × Str) :=
  let snippet := pySlice html (m.2.1 - margin) (m.2.2 + margin)
  let label :=
    match tagPairSearch snippet with
    | some inner => (_clean_text inner).take 80
    | none => []
  let url := _resolve_candidate_url m.1 currentUrl html
  if url ≠ [] ∧ label ≠ [] then out ++ [(label, url)] else out

/-- `data-(?:url|route|href)\s*=\s*["'](URLVAL)["']` tried at `p`;
returns `(url, start, end)` and the continuation position. -/
def dataAttrTryAt (s : Str) (p : Nat) : Option ((Str × Nat × Nat) × Nat) :=
  if ciPrefixAt s (pystr ("data-")) p then
    let i := p + 5
    let tryA := fun (a : Str) =>
      if ciPrefixAt s a i then
        (eqConnectorAt s (i + a.length)).bind (fun posq =>
          (quotedUrlvalAt s posq).map (fun vu => ((vu.1, p, vu.2), vu.2)))
      else none
    match tryA (pystr ("url")) with
    | some r => some r
    | none =>
      match tryA (pystr ("route")) with
      | some r => some r
      | none => tryA (pystr ("href"))
  else none

/-- The `value-attribute ... closing tag` tail shared by the form and the
option patterns, tried right-to-left from the greedy `[^>]+` limit:
`NAME=["'](URLVAL)["'][^>]*>(.*?)CLOSE`. -/
def attrValScanDown (s : Str) (nameEq close : Str) (lo : Nat) :
    Nat → Nat → Option (Str × Str × Nat)
  | 0, _ => none
  | fuel + 1, r =>
    match
      (if ciPrefixAt s nameEq r then
        (quotedUrlvalAt s (r + nameEq.length)).bind (fun vu =>
          let attrs2 := (s.drop vu.2).takeWhile (fun c => c ≠ '>')
          if s.get? (vu.2 + attrs2.length) = some '>' then
            let cstart := vu.2 + attrs2.length + 1
            (findCiFrom s close cstart).map (fun j =>
              (vu.1, (s.take j).drop cstart, j + close.length))
          else none)
      else none) with
    | some v => some v
    | none => if lo < r then attrValScanDown s nameEq close lo fuel (r - 1) else none

/-- `<form[^>]+action=["'](URLVAL)["'][^>]*>(.*?)</form>` tried at `p`;
returns `((url, inner), end)`. -/
def formTryAt (s : Str) (p : Nat) : Option ((Str × Str) × Nat) :=
  if ciPrefixAt s (pystr ("<form")) p then
    let run := ((s.drop (p + 5)).takeWhile (fun c => c ≠ '>')).length
    let rmax := p + 5 + run
    if p + 6 ≤ rmax then
      (attrValScanDown s (pystr ("action=")) (pystr ("</form>")) (p + 6) (rmax + 1) rmax).map
        (fun v => ((v.1, v.2.1), v.2.2))
    else none
  else none

/-- `formaction=["'](URLVAL)["']` tried at `p`. -/
def formactionTryAt (s : Str) (p : Nat) : Option ((Str × Nat × Nat) × Nat) :=
  if ciPrefixAt s (pystr ("formaction=")) p then
    (quotedUrlvalAt s (p + 11)).map (fun vu => ((vu.1, p, vu.2), vu.2))
  else none

/-- `<button[^>]*>(.*?)</button>` tried at `p`. -/
def buttonTryAt (sn : Str) (p : Nat) : Option Str :=
  if ciPrefixAt sn (pystr ("<button")) p then
    let attrs := (sn.drop (p + 7)).takeWhile (fun c => c ≠ '>')
    if sn.get? (p + 7 + attrs.length) = some '>' then
      let cstart := p + 8 + attrs.length
      (findCiFrom sn (pystr ("</button>")) cstart).map (fun j => (sn.take j).drop cstart)
    else none
  else none

def buttonSearch (sn : Str) : Option Str :=
  scanFirst (buttonTryAt sn) sn.length (sn.length + 1) 0

/-- `location\.href\s*=\s*this\.value` tried at `j`. -/
def lochrefAt (s : Str) (j : Nat) : Bool :=
  if ciPrefixAt s (pystr ("location.href")) j then
    let i := skipWs s (j + 13)
    if s.get? i = some '=' then ciPrefixAt s (pystr ("this.value")) (skipWs s (i + 1))
    else false
  else false

/-- `onchange=["'][^"']*location\.href\s*=\s*this\.value[^"']*["']`
tried at `r`; returns the match end. -/
def onchangeOkAt (s : Str) (r : Nat) : Option Nat :=
  if ciPrefixAt s (pystr ("onchange=")) r then
    match s.get? (r + 9) with
    | some q =>
      if isQuoteCh q then
        let rr := (s.drop (r + 10)).takeWhile (fun c => ¬ isQuoteCh c)
        if (s.get? (r + 10 + rr.length)).isSome ∧ 1 ≤ rr.length ∧
           (scanFirst (fun j => if lochrefAt s j then some () else none)
             (r + 9 + rr.length) (rr.length + 1) (r + 10)).isSome then
          some (r + 11 + rr.length)
        else none
      else none
    | none => none
  else none

def selScanDown (s : Str) (lo : Nat) : Nat → Nat → Option Nat
  | 0, _ => none
  | fuel + 1, r =>
    match onchangeOkAt s r with
    | some e => some e
    | none => if lo < r then selScanDown s lo fuel (r - 1) else none

/-- The select-onchange pattern tried at `p`; returns `(start, end)`. -/
def selectTryAt (s : Str) (p : Nat) : Option ((Nat × Nat) × Nat) :=
  if ciPrefixAt s (pystr ("<select")) p then
    let run := ((s.drop (p + 7)).takeWhile (fun c => c ≠ '>')).length
    let rmax := p + 7 + run
    if p + 8 ≤ rmax then
      (selScanDown s (p + 8) (rmax + 1) rmax).map (fun e => ((p, e), e))
    else none
  else none

/-- `re.search(r'<select[^>]*>(.*?)</select>', t, re.I|re.S)`. -/
def selBlockTryAt (t : Str) (x : Nat) : Option Str :=
  if ciPrefixAt t (pystr ("<select")) x then
    let attrs := (t.drop (x + 7)).takeWhile (fun c => c ≠ '>')
    if t.get? (x + 7 + attrs.length) = some '>' then
      let cstart := x + 8 + attrs.length
      (findCiFrom t (pystr ("</select>")) cstart).map (fun j => (t.take j).drop cstart)
    else none
  else none

def selBlockSearch (t : Str) : Option Str :=
  scanFirst (selBlockTryAt t) t.length (t.length + 1) 0

/-- `<option[^>]+value=["'](URLVAL)["'][^>]*>(.*?)</option>` tried at `p`. -/
def optionTryAt (s : Str) (p : Nat) : Option ((Str × Str) × Nat) :=
  if ciPrefixAt s (pystr ("<option")) p then
    let run := ((s.drop (p + 7)).takeWhile (fun c => c ≠ '>')).length
    let rmax := p + 7 + run
    if p + 8 ≤ rmax then
      (attrValScanDown s (pystr ("value=")) (pystr ("</option>")) (p + 8) (rmax + 1) rmax).map
        (fun v => ((v.1, v.2.1), v.2.2))
    else none
  else none

/-- `_extract_non_a_candidates(html, current_url)`. -/
def _extract_non_a_candidates (html currentUrl : Str) : List (Str × Str) :=
  let mA := finditerAll
    (fun p => (onclickNavTryAt html onclickCoreA p).map (fun m => (m, m.2.2))) html.length
  let out := mA.foldl (fun out m => emitSnippet html currentUrl out m 200) []
  let mB := finditerAll
    (fun p => (onclickNavTryAt html onclickCoreB p).map (fun m => (m, m.2.2))) html.length
  let out := mB.foldl (fun out m => emitSnippet html currentUrl out m 200) out
  let mC := finditerAll
    (fun p => (onclickNavTryAt html onclickCoreC p).map (fun m => (m, m.2.2))) html.length
  let out := mC.foldl (fun out m => emitSnippet html currentUrl out m 200) out
  let mD := finditerAll (dataAttrTryAt html) html.length
  let out := mD.foldl (fun out m => emitSnippet html currentUrl out m 150) out
  let mF := finditerAll (formTryAt html) html.length
  let out := mF.foldl
    (fun out m =>
      let label := (_clean_text m.2).take 80
      let url := _resolve_candidate_url m.1 currentUrl html
      if url ≠ [] ∧ label ≠ [] then out ++ [(label, url)] else out) out
  let mFA := finditerAll (formactionTryAt html) html.length
  let out := mFA.foldl
    (fun out m =>
      let sn := pySlice html (m.2.1 - 150) (m.2.2 + 150)
      let label :=
        match buttonSearch sn with
        | some inner => (_clean_text inner).take 80
        | none => []
      let url := _resolve_candidate_url m.1 currentUrl html
      if url ≠ [] ∧ label ≠ [] then out ++ [(label, url)] else out) out
  let mS := finditerAll (selectTryAt html) html.length
  let out := mS.foldl
    (fun out st =>
      match selBlockSearch (html.drop st.1) with
      | some content =>
        (finditerAll (optionTryAt content) content.length).foldl
          (fun out m =>
            let label := (_clean_text m.2).take 80
            let url := _resolve_candidate_url m.1 currentUrl html
            if url ≠ [] ∧ label ≠ [] then out ++ [(label, url)] else out) out
      | none => out) out
  out ++ _extract_onclick_function_candidates html currentUrl

/-! ### Menu-tree extraction (`html.parser.HTMLParser` + `_MenuTreeParser`) -/

inductive HEv where
  | startT : Str → List (Str × Str) → HEv
  | endT : Str → HEv
  | dataT : Str → HEv
  deriving Repr

/-- Tag-name characters of `tagfind_tolerant`. -/
def tagNameCh (c : Char) : Bool :=
  ¬ (c = '\t' ∨ c = '\n' ∨ c = '\x0d' ∨ c = '\x0c' ∨ c = ' ' ∨ c = '/' ∨ c = '>' ∨ c = '\x00')

/-- Name characters of `endtagfind` after the leading letter. -/
def endNameCh (c : Char) : Bool :=
  c.isAlphanum || c = '-' || c = '.' || c = ':' || c = '_'

def attrNameCh (c : Char) : Bool := ¬ pyIsWs c && c ≠ '/' && c ≠ '=' && c ≠ '>'

/-- The attribute loop of `parse_starttag` (`attrfind_tolerant`), from
position `i`; returns `(attrs, position after >, self-closing)`, or
`none` when the tag never closes (the parser then buffers the tail and
emits nothing for it). -/
def parseAttrsGo (s : Str) : Nat → Nat → List (Str × Str) → Option (List (Str × Str) × Nat × Bool)
  | 0, _, _ => none
  | fuel + 1, i, acc =>
    match s.get? i with
    | none => none
    | some c =>
      if pyIsWs c then parseAttrsGo s fuel (i + 1) acc
      else if c = '/' then
        if s.get? (i + 1) = some '>' then some (acc, i + 2, true)
        else parseAttrsGo s fuel (i + 1) acc
      else if c = '>' then some (acc, i + 1, false)
      else
        let aname := c :: (s.drop (i + 1)).takeWhile attrNameCh
        let j := skipWs s (i + aname.length)
        if s.get? j = some '=' then
          let j := j + ((s.drop j).takeWhile (fun c => c = '=')).length
          let j := skipWs s j
          match s.get? j with
          | some '"' =>
            let v := (s.drop (j + 1)).takeWhile (fun c => c ≠ '"')
            if (s.get? (j + 1 + v.length)).isSome then
              parseAttrsGo s fuel (j + 2 + v.length) (acc ++ [(pyLower aname, htmlUnescape v)])
            else none
          | some '\'' =>
            let v := (s.drop (j + 1)).takeWhile (fun c => c ≠ '\'')
            if (s.get? (j + 1 + v.length)).isSome then
              parseAttrsGo s fuel (j + 2 + v.length) (acc ++ [(pyLower aname, htmlUnescape v)])
            else none
          | _ =>
            let v := (s.drop j).takeWhile (fun c => ¬ pyIsWs c ∧ c ≠ '>')
            parseAttrsGo s fuel (j + v.length) (acc ++ [(pyLower aname, htmlUnescape v)])
        else parseAttrsGo s fuel (i + aname.length) (acc ++ [(pyLower aname, [])])

def tagStartParse (s : Str) (lt : Nat) : Option (Str × List (Str × Str) × Nat × Bool) :=
  match s.get? (lt + 1) with
  | some c =>
    if c.isAlpha then
      let nm := c :: (s.drop (lt + 2)).takeWhile tagNameCh
      (parseAttrsGo s (s.length + 1) (lt + 1 + nm.length) []).map
        (fun r => (nm, r.1, r.2.1, r.2.2))
    else none
  | none => none

/-- Strict `endtagfind` (`</\s*name\s*>`) at `q`, for the given element
(used to leave script/style CDATA mode); returns the continue position. -/
def strictEndTagAt (s : Str) (q : Nat) (elem : Str) : Option Nat :=
  if (s.drop q).take 2 = pystr ("</") then
    let i := skipWs s (q + 2)
    match s.get? i with
    | some c =>
      if c.isAlpha then
        let nm := c :: (s.drop (i + 1)).takeWhile endNameCh
        let j := skipWs s (i + nm.length)
        if s.get? j = some '>' ∧ pyLower nm = elem then some (j + 1) else none
      else none
    | none => none
  else none

/-- `parse_endtag` outside CDATA mode: returns the (optional) end-tag
event and the continue position, or `none` when the parser would wait
for more data. -/
def parseEndTag (s : Str) (p : Nat) : Option (Option Str × Nat) :=
  match pyFindFrom s (pystr (">")) (p + 1) with
  | none => none
  | some _ =>
    let i := skipWs s (p + 2)
    let strict :=
      match s.get? i with
      | some c =>
        if c.isAlpha then
          let nm := c :: (s.drop (i + 1)).takeWhile endNameCh
          let j := skipWs s (i + nm.length)
          if s.get? j = some '>' then some (pyLower nm, j + 1) else none
        else none
      | none => none
    match strict with
    | some (nm, cont) => some (some nm, cont)
    | none =>
      match s.get? (p + 2) with
      | some c =>
        if c.isAlpha then
          let nm := c :: (s.drop (p + 3)).takeWhile tagNameCh
          match pyFindFrom s (pystr (">")) (p + 2 + nm.length) with
          | some g => some (some (pyLower nm), g + 1)
          | none => none
        else if c = '>' then some (none, p + 3)
        else
          match pyFindFrom s (pystr (">")) (p + 2) with
          | some g => some (none, g + 1)
          | none => none
      | none => none

/-- The `HTMLParser` tokenizer with `convert_charrefs=True`: start tags
(with a separate end event for self-closing ones), end tags, data (with
character references converted outside CDATA), script/style CDATA mode;
comments, declarations and processing instructions are skipped (the
menu parser ignores them). -/
def tokGo (s : Str) : Nat → Nat → Option Str → List HEv → List HEv
  | 0, _, _, acc => acc
  | fuel + 1, pos, cdata, acc =>
    match cdata with
    | some elem =>
      match
        scanFirst (fun q => (strictEndTagAt s q elem).map (fun c => (q, c)))
          s.length (s.length + 1) pos with
      | some (q, cont) =>
        let acc := if pos < q then acc ++ [HEv.dataT ((s.take q).drop pos)] else acc
        tokGo s fuel cont none (acc ++ [HEv.endT elem])
      | none =>
        if pos < s.length then acc ++ [HEv.dataT (s.drop pos)] else acc
    | none =>
      if s.length ≤ pos then acc
      else
        match pyFindFrom s (pystr ("<")) pos with
        | none => acc ++ [HEv.dataT (htmlUnescape (s.drop pos))]
        | some lt =>
          let acc := if pos < lt then acc ++ [HEv.dataT (htmlUnescape ((s.take lt).drop pos))] else acc
          match s.get? (lt + 1) with
          | none => acc
          | some c =>
            if c.isAlpha then
              match tagStartParse s lt with
              | some (name, attrs, cont, selfC) =>
                let nm := pyLower name
                let acc := acc ++ [HEv.startT nm attrs] ++ (if selfC then [HEv.endT nm] else [])
                if ¬ selfC ∧ (nm = pystr ("script") ∨ nm = pystr ("style")) then
                  tokGo s fuel cont (some nm) acc
                else tokGo s fuel cont none acc
              | none => acc
            else if c = '/' then
              match parseEndTag s lt with
              | some (ev, cont) =>
                tokGo s fuel cont none
                  (acc ++ (match ev with | some nm => [HEv.endT nm] | none => []))
              | none => acc
            else if c = '!' then
              if (s.drop lt).take 4 = pystr ("<!--") then
                match pyFindFrom s (pystr ("-->")) (lt + 4) with
                | some j => tokGo s fuel (j + 3) none acc
                | none => acc
              else
                match pyFindFrom s (pystr (">")) (lt + 2) with
                | some j => tokGo s fuel (j + 1) none acc
                | none => acc
            else if c = '?' then
              match pyFindFrom s (pystr (">")) (lt + 2) with
              | some j => tokGo s fuel (j + 1) none acc
              | none => acc
            else tokGo s fuel (lt + 1) none (acc ++ [HEv.dataT (pystr ("<"))])

def htmlTokens (s : Str) : List HEv := tokGo s (s.length + 1) 0 none []

def _MENU_HINTS : List Str :=
  [pystr ("menu"), pystr ("nav"), pystr ("gnb"), pystr ("lnb"), pystr ("snb"),
   pystr ("submenu"), pystr ("depth"), pystr ("dropdown"), pystr ("tab"),
   pystr ("category"), pystr ("side"), pystr ("global"), pystr ("primary"),
   pystr ("secondary")]

def _BREAD_HINTS : List Str :=
  [pystr ("breadcrumb"), pystr ("breadcrumbs"), pystr ("bread"), pystr ("path"),
   pystr ("location"), pystr ("loc")]

/-- `_attrs_to_dict` (a dict comprehension: later duplicates win). -/
def _attrs_to_dict (attrs : List (Str × Str)) : List (Str × Str) :=
  attrs.foldl (fun d kv => dictSet d kv.1 kv.2) []

def dGetD (d : List (Str × Str)) (k : Str) : Str := (dictGet d k).getD []

/-- `_MenuTreeParser._is_menu_ul`. -/
def _is_menu_ul (d : List (Str × Str)) : Bool :=
  let klass := pyLower (dGetD d (pystr ("class")))
  let idv := pyLower (dGetD d (pystr ("id")))
  let hay := ' ' :: klass ++ ' ' :: idv ++ [' ']
  _MENU_HINTS.any (fun k => pyContains hay k) || _BREAD_HINTS.any (fun b => pyContains hay b)

/-- `_MenuNode`, in an arena (children hold indices; Python's object graph
mutates nodes that are already linked into their parent). -/
structure MTNode where
  label : Option Str
  href : Option Str
  children : List Nat
  deriving Repr

structure MTState where
  nodes : List MTNode
  stack : List Nat
  navDepth : Nat
  menuUlDepth : Nat
  inA : Bool
  aTextBuf : List Str
  aHref : Str
  deriving Repr

def mtInit : MTState := ⟨[⟨none, none, []⟩], [0], 0, 0, false, [], []⟩

def mtModifyNode (nodes : List MTNode) (id : Nat) (f : MTNode → MTNode) : List MTNode :=
  match nodes.get? id with
  | some nd => nodes.set id (f nd)
  | none => nodes

def mtScope (st : MTState) : Prop := 0 < st.navDepth ∨ 0 < st.menuUlDepth

instance (st : MTState) : Decidable (mtScope st) := by
  unfold mtScope; infer_instance

/-- `_MenuTreeParser.handle_starttag`. -/
def mtStart (st : MTState) (tag : Str) (attrs : List (Str × Str)) : MTState :=
  let d := _attrs_to_dict attrs
  if tag = pystr ("nav") then { st with navDepth := st.navDepth + 1 }
  else if tag = pystr ("ul") ∨ tag = pystr ("ol") then
    if _is_menu_ul d then { st with menuUlDepth := st.menuUlDepth + 1 } else st
  else if tag = pystr ("li") then
    if mtScope st then
      let newId := st.nodes.length
      let nodes := st.nodes ++ [⟨none, none, []⟩]
      let nodes :=
        match st.stack.head? with
        | some top => mtModifyNode nodes top (fun nd => { nd with children := nd.children ++ [newId] })
        | none => nodes
      { st with nodes := nodes, stack := newId :: st.stack }
    else st
  else if tag = pystr ("a") then
    if mtScope st then
      { st with inA := true, aTextBuf := [], aHref := dGetD d (pystr ("href")) }
    else st
  else st

/-- `_MenuTreeParser.handle_data`. -/
def mtData (st : MTState) (txt : Str) : MTState :=
  if st.inA ∧ mtScope st then { st with aTextBuf := st.aTextBuf ++ [txt] } else st

/-- `_MenuTreeParser.handle_endtag`. -/
def mtEnd (st : MTState) (tag : Str) : MTState :=
  if tag = pystr ("a") then
    let st :=
      if st.inA ∧ mtScope st then
        let label := _clean_text (pyJoin [] st.aTextBuf)
        if label ≠ [] then
          match st.stack.head? with
          | some top =>
            { st with nodes := mtModifyNode st.nodes top (fun nd =>
                let nd := if (nd.label.getD []) = [] then { nd with label := some label } else nd
                if (nd.href.getD []) = [] ∧ st.aHref ≠ [] then { nd with href := some st.aHref } else nd) }
          | none => st
        else st
      else st
    { st with inA := false, aTextBuf := [], aHref := [] }
  else if tag = pystr ("li") then
    if 1 < st.stack.length ∧ mtScope st then { st with stack := st.stack.tail } else st
  else if tag = pystr ("ul") ∨ tag = pystr ("ol") then
    if 0 < st.menuUlDepth then { st with menuUlDepth := st.menuUlDepth - 1 } else st
  else if tag = pystr ("nav") then
    if 0 < st.navDepth then { st with navDepth := st.navDepth - 1 } else st
  else st

def mtStep (st : MTState) : HEv → MTState
  | HEv.startT nm attrs => mtStart st nm attrs
  | HEv.endT nm => mtEnd st nm
  | HEv.dataT txt => mtData st txt

/-- Dict assignment on `(label, url)`-keyed maps (`leaf_map`). -/
def assocSetPair (d : List ((Str × Str) × Str)) (k : Str × Str) (v : Str) :
    List ((Str × Str) × Str) :=
  if (d.find? (fun p => p.1 == k)).isSome then
    d.map (fun p => if p.1 == k then (k, v) else p)
  else d ++ [(k, v)]

def assocGetPair (d : List ((Str × Str) × Str)) (k : Str × Str) : Option Str :=
  match d.find? (fun p => p.1 == k) with
  | some p => some p.2
  | none => none

/-- The `walk` of `_flatten_menu_tree`, over the arena (children always
have larger indices than their parent, so the arena size bounds the
depth). -/
def walkGo (nodes : List MTNode) (curUrl html : Str) :
    Nat → Nat → List Str → List (Str × Str) × List ((Str × Str) × Str) →
    List (Str × Str) × List ((Str × Str) × Str)
  | 0, _, _, acc => acc
  | fuel + 1, id, path, acc =>
    match nodes.get? id with
    | none => acc
    | some nd =>
      let myLabel := pyStrip (nd.label.getD [])
      let myHref := pyStrip (nd.href.getD [])
      let newPath := path ++ (if myLabel ≠ [] then [myLabel] else [])
      let acc :=
        if myLabel ≠ [] ∧ myHref ≠ [] then
          let absurl := _resolve_candidate_url myHref curUrl html
          if absurl ≠ [] then
            let pathLabel := pyJoin (pystr (" > ")) (newPath.map (fun x => '[' :: x ++ [']']))
            (acc.1 ++ [(pathLabel, absurl)], assocSetPair acc.2 (myLabel, absurl) pathLabel)
          else acc
        else acc
      nd.children.foldl (fun acc ch => walkGo nodes curUrl html fuel ch newPath acc) acc

/-- `_flatten_menu_tree(root, current_url, html)`. -/
def _flatten_menu_tree (nodes : List MTNode) (curUrl html : Str) :
    List (Str × Str) × List ((Str × Str) × Str) :=
  match nodes.get? 0 with
  | some root =>
    root.children.foldl (fun acc ch => walkGo nodes curUrl html (nodes.length + 1) ch [] acc) ([], [])
  | none => ([], [])

/-- `extract_menu_tree_candidates(html, current_url)`. -/
def extract_menu_tree_candidates (html currentUrl : Str) :
    List (Str × Str) × List ((Str × Str) × Str) :=
  let st := (htmlTokens html).foldl mtStep mtInit
  _flatten_menu_tree st.nodes currentUrl html

/-- The final `(label, url)` dedup loop (a `seen` set plus an output list). -/
def dedupPairsGo : List (Str × Str) → List (Str × Str) → List (Str × Str) → List (Str × Str)
  | [], _, out => out
  | x :: rest, seen, out =>
    if seen.contains x then dedupPairsGo rest seen out
    else dedupPairsGo rest (x :: seen) (out ++ [x])

/-- `extract_menu_candidates_from_html(html, current_url)`. -/
def extract_menu_candidates_from_html (html currentUrl : Str) : List (Str × Str) :=
  let tl := extract_menu_tree_candidates html currentUrl
  let treeCands := tl.1
  let leafMap := tl.2
  let applyPathlabel := fun (items : List (Str × Str)) =>
    items.map (fun lu =>
      match assocGetPair leafMap lu with
      | some pl => (pl, lu.2)
      | none => lu)
  let anchors := applyPathlabel (_extract_anchor_candidates html currentUrl)
  let nonA := applyPathlabel (_extract_non_a_candidates html currentUrl)
  dedupPairsGo (treeCands ++ anchors ++ nonA) [] []

/-! ### Request/response parsing, body decoding, pool building, matching -/

/-- Lossy UTF-8 decoding (`bytes.decode('utf-8', 'ignore')`): invalid
bytes are skipped one at a time, which produces the same output as
CPython's maximal-subpart skipping because continuation bytes are never
valid lead bytes. -/
def utf8Go : Nat → Bytes → Str
  | 0, _ => []
  | _ + 1, [] => []
  | fuel + 1, b :: rest =>
    let isCont := fun (x : Nat) => 0x80 ≤ x ∧ x ≤ 0xbf
    if b < 0x80 then Char.ofNat b :: utf8Go fuel rest
    else if 0xc2 ≤ b ∧ b ≤ 0xdf then
      match rest with
      | b2 :: rest2 =>
        if isCont b2 then Char.ofNat ((b - 0xc0) * 64 + (b2 - 0x80)) :: utf8Go fuel rest2
        else utf8Go fuel rest
      | [] => []
    else if 0xe0 ≤ b ∧ b ≤ 0xef then
      match rest with
      | b2 :: b3 :: rest3 =>
        let ok2 :=
          if b = 0xe0 then 0xa0 ≤ b2 ∧ b2 ≤ 0xbf
          else if b = 0xed then 0x80 ≤ b2 ∧ b2 ≤ 0x9f
          else isCont b2
        if ok2 ∧ isCont b3 then
          Char.ofNat ((b - 0xe0) * 4096 + (b2 - 0x80) * 64 + (b3 - 0x80)) :: utf8Go fuel rest3
        else utf8Go fuel rest
      | _ =>
        match rest with
        | b2 :: [] =>
          let ok2 :=
            if b = 0xe0 then 0xa0 ≤ b2 ∧ b2 ≤ 0xbf
            else if b = 0xed then 0x80 ≤ b2 ∧ b2 ≤ 0x9f
            else isCont b2
          if ok2 then [] else utf8Go fuel rest
        | _ => []
    else if 0xf0 ≤ b ∧ b ≤ 0xf4 then
      match rest with
      | b2 :: b3 :: b4 :: rest4 =>
        let ok2 :=
          if b = 0xf0 then 0x90 ≤ b2 ∧ b2 ≤ 0xbf
          else if b = 0xf4 then 0x80 ≤ b2 ∧ b2 ≤ 0x8f
          else isCont b2
        if ok2 ∧ isCont b3 ∧ isCont b4 then
          Char.ofNat ((b - 0xf0) * 262144 + (b2 - 0x80) * 4096 + (b3 - 0x80) * 64 + (b4 - 0x80))
            :: utf8Go fuel rest4
        else utf8Go fuel rest
      | _ => utf8Go fuel rest
    else utf8Go fuel rest

/-- `_decode_bytes` (`errors='ignore'` never raises, so the `cp949` and
`latin-1` fallback branches are dead code). -/
def _decode_bytes (b : Bytes) : Str := utf8Go (b.length + 1) b

def charsetCh (c : Char) : Bool := c.isAlphanum || c = '.' || c = '_' || c = '-'

/-- `charset\s*=\s*([A-Za-z0-9._-]+)` tried at `p`. -/
def charsetTryAt (ctype : Str) (p : Nat) : Option Str :=
  if ciPrefixAt ctype (pystr ("charset")) p then
    let i := skipWs ctype (p + 7)
    if ctype.get? i = some '=' then
      let i := skipWs ctype (i + 1)
      let run := (ctype.drop i).takeWhile charsetCh
      if run = [] then none else some run
    else none
  else none

/-- `_decode_body(body, headers)`.  The codec registry is the one piece of
the interpreter that is not embedded: `pyDecode enc body` stands for
`body.decode(enc, 'ignore')`, with `none` for the `LookupError` of an
unknown encoding (caught by the `except: pass`). -/
def _decode_body (pyDecode : Str → Bytes → Option Str) (body : Bytes)
    (headers : List (Str × Str)) : Str :=
  let ctype := dictGet2 headers (pystr ("Content-Type")) (pystr ("content-type"))
  match scanFirst (charsetTryAt ctype) ctype.length (ctype.length + 1) 0 with
  | some enc =>
    match pyDecode (pyLower enc) body with
    | some s => s
    | none => _decode_bytes body
  | none => _decode_bytes body

def bytesFindAux (sub : Bytes) : Bytes → Nat → Option Nat
  | [], i => if sub = [] then some i else none
  | s@(_ :: rest), i =>
    if sub.isPrefixOf s then some i else bytesFindAux sub rest (i + 1)

/-- `data.partition(sep)` on bytes: `(before, found, after)`. -/
def bytesPartition (data sub : Bytes) : Bytes × Bool × Bytes :=
  match bytesFindAux sub data 0 with
  | some i => (data.take i, true, data.drop (i + sub.length))
  | none => (data, false, [])

/-- The header-line loop of `_parse_request_bytes` (stops at the first
blank line). -/
def parseHeaderLines : List Str → List (Str × Str) → List (Str × Str)
  | [], hs => hs
  | ln :: rest, hs =>
    if pyStrip ln = [] then hs
    else if pyContains ln (pystr (":")) then
      let kv := pySplit1 ln (pystr (":"))
      parseHeaderLines rest (dictSet hs (pyStrip kv.1) (pyStrip kv.2))
    else parseHeaderLines rest hs

/-- `_parse_request_bytes(data) -> (method, target, headers, body)`. -/
def _parse_request_bytes (data : Bytes) : Str × Str × List (Str × Str) × Bytes :=
  let pt := bytesPartition data [13, 10, 13, 10]
  let pt := if pt.2.1 then pt else bytesPartition data [10, 10]
  let text := _decode_bytes pt.1
  let lines := pySplitlines text
  let mt :=
    match lines.head? with
    | some l0 =>
      match pySplitWs l0 with
      | p0 :: p1 :: _ => (p0, p1)
      | _ => ([], [])
    | none => ([], [])
  (mt.1, mt.2, parseHeaderLines lines.tail [], pt.2.2)

/-- The header-line loop of `_parse_response_bytes` (no blank-line stop). -/
def parseRespHeaderLines (lines : List Str) : List (Str × Str) :=
  lines.foldl
    (fun hs ln =>
      if pyContains ln (pystr (":")) then
        let kv := pySplit1 ln (pystr (":"))
        dictSet hs (pyStrip kv.1) (pyStrip kv.2)
      else hs)
    []

/-- `_parse_response_bytes(data) -> (headers, body)`. -/
def _parse_response_bytes (data : Bytes) : List (Str × Str) × Bytes :=
  let pt := bytesPartition data [13, 10, 13, 10]
  let pt := if pt.2.1 then pt else bytesPartition data [10, 10]
  (parseRespHeaderLines (pySplitlines (_decode_bytes pt.1)), pt.2.2)

/-- `_content_type_is_html(headers)`. -/
def _content_type_is_html (headers : List (Str × Str)) : Bool :=
  let ctype := pyLower (dictGet2 headers (pystr ("Content-Type")) (pystr ("content-type")))
  pyContains ctype (pystr ("text/html")) || pyContains ctype (pystr ("application/xhtml+xml"))

/-! ### `build_candidate_pool_from_saz` -/

/-- The archive (`zipfile.ZipFile`): named entries whose payload is
`none` when reading the entry raises (`BadZipFile` and friends). -/
abbrev Archive := List (Str × Option Bytes)

def namelist (A : Archive) : List Str := A.map (fun e => e.1)

/-- `zf.read(n)`: `none` models the raised exception. -/
def zfRead (A : Archive) (n : Str) : Option Bytes :=
  match A.find? (fun e => e.1 == n) with
  | some e => e.2
  | none => none

/-- The `raw/(\d+)_s\.txt$` search on an entry name. -/
def sNumOf (sname : Str) : Option Str :=
  if (pystr ("_s.txt")).isSuffixOf sname then
    let stem := sname.take (sname.length - 6)
    let digits := (stem.reverse.takeWhile isDigitCh).reverse
    if digits ≠ [] ∧ (pystr ("raw/")).isSuffixOf (stem.take (stem.length - digits.length)) then
      some digits
    else none
  else none

/-- The iterated entry names: `raw/…_s.txt`. -/
def sNames (A : Archive) : List Str :=
  (namelist A).filter
    (fun n => (pystr ("raw/")).isPrefixOf n && (pystr ("_s.txt")).isSuffixOf n)

/-- The body of the per-item `try`: `.error` models a raised exception
(caught by the `except Exception: pass`), `.ok none` a `continue`, and
`.ok (some (key, cands))` a contribution to the pool. -/
def itemResult (pyDecode : Str → Bytes → Option Str) (A : Archive) (sname : Str) :
    Except Unit (Option (Str × List (Str × Str))) :=
  match zfRead A sname with
  | none => .error ()
  | some respBytes =>
    let rp := _parse_response_bytes respBytes
    let respHeaders := rp.1
    let respBody := rp.2
    if ¬ _content_type_is_html respHeaders then .ok none
    else
      match sNumOf sname with
      | none => .ok none
      | some mnum =>
        let reqn := pystr ("raw/") ++ mnum ++ pystr ("_c.txt")
        let readReq : Option (Option Bytes) :=
          if (namelist A).contains reqn then some (zfRead A reqn)
          else
            let reqn2 := pystr ("raw/") ++ pad4 (natOfDigits mnum) ++ pystr ("_c.txt")
            if (namelist A).contains reqn2 then some (zfRead A reqn2) else none
        match readReq with
        | none => .ok none
        | some none => .error ()
        | some (some reqBytes) =>
            let pr := _parse_request_bytes reqBytes
            let target := pr.2.1
            let headers := pr.2.2.1
            let host := dictGet2 headers (pystr ("Host")) (pystr ("host"))
            if host = [] then .ok none
            else
              let ref := pyOr (dictGet2 headers (pystr ("Referer")) (pystr ("referer")))
                (dictGet2 headers (pystr ("Origin")) (pystr ("origin")))
              let scheme :=
                if (pystr ("http")).isPrefixOf ref then (urlparse ref).scheme
                else if (pystr (":443")).isSuffixOf host then pystr ("https") else pystr ("https")
              let currentUrl :=
                if (pystr ("http")).isPrefixOf target then target
                else scheme ++ pystr ("://") ++ host ++ target
              let html := _decode_body pyDecode respBody respHeaders
              let cands := extract_menu_candidates_from_html html currentUrl
              if cands = [] then .ok none
              else .ok (some (_hostkey currentUrl, cands))

/-- The accumulation loop of `build_candidate_pool_from_saz`; the pool
dict is modelled extensionally as a function with default `[]`
(`pool.setdefault(key, []); pool[key].extend(cands)`). -/
def buildPoolRaw (pyDecode : Str → Bytes → Option Str) (A : Archive) :
    Str → List (Str × Str) :=
  (sNames A).foldl
    (fun pool sname =>
      match itemResult pyDecode A sname with
      | .ok (some kc) => fun h => if h = kc.1 then pool h ++ kc.2 else pool h
      | _ => pool)
    (fun _ => [])

/-- `build_candidate_pool_from_saz(zf)` (the progress callback performs
no state change and is omitted; `progress_every` cannot affect the
result). -/
def build_candidate_pool_from_saz (pyDecode : Str → Bytes → Option Str) (A : Archive) :
    Str → List (Str × Str) :=
  fun h => dedupPairsGo (buildPoolRaw pyDecode A h) [] []

/-! ### `best_menu_for_url` -/

/-- `re.findall(r'\[([^\]]+)\]', label)`. -/
def bracketFindall : Nat → Str → List Str
  | 0, _ => []
  | _ + 1, [] => []
  | fuel + 1, '[' :: rest =>
    let inner := rest.takeWhile (fun c => c ≠ ']')
    let after := rest.drop inner.length
    if inner ≠ [] ∧ after ≠ [] then inner :: bracketFindall fuel (after.drop 1)
    else bracketFindall fuel rest
  | fuel + 1, _ :: rest => bracketFindall fuel rest

/-- The last bracketed segment of a label (`m[-1] if m else label`),
lower-cased. -/
def lblLastOf (label : Str) : Str :=
  pyLower ((bracketFindall (label.length + 1) label).getLastD label)

/-- `candidate_score`: the per-candidate score of `best_menu_for_url`'s
loop — `path_similarity` plus the +5 label bonus. -/
def candidate_score (url : Str) (lc : Str × Str) : Rat :=
  let tgtSegs := _path_segs url
  let tgtLast := pyLower (tgtSegs.getLastD [])
  let s := path_similarity url lc.2
  let lblLast := if lc.1 ≠ [] then lblLastOf lc.1 else []
  if tgtLast ≠ [] ∧ lblLast ≠ [] ∧ pyContains lblLast tgtLast then s + 5 else s

/-- The candidate set assembled by `best_menu_for_url`: the pool entry
for the query's host key plus, for a differing non-empty referrer host
key, the referrer's entry. -/
def host_candidates (url : Str) (pool : Str → List (Str × Str)) (refererUrl : Option Str) :
    List (Str × Str) :=
  pool (_hostkey url) ++
    (match refererUrl with
     | some r =>
       if r ≠ [] then
         let rhostk := _hostkey r
         if rhostk ≠ [] ∧ rhostk ≠ _hostkey url then pool rhostk else []
       else []
     | none => [])

/-- `best_menu_for_url(url, pool, referer_url, threshold)`.  The pool is
the extensional dict of `build_candidate_pool_from_saz`; `rhostk in pool`
merges with the empty default because a missing key contributes no
candidates either way.  The per-candidate score (the source hoists
`tgt_segs`/`tgt_last` out of the loop; `candidate_score` recomputes the
same pure values) and the candidate list are split into named
definitions. -/
def best_menu_for_url (url : Str) (pool : Str → List (Str × Str))
    (refererUrl : Option Str) (threshold : Rat) : Option Str × Rat × Option Str :=
  if url = [] then (none, 0, none)
  else
    let candidates := host_candidates url pool refererUrl
    if candidates = [] then (none, 0, none)
    else
      let best := candidates.foldl
        (fun best lc =>
          let s := candidate_score url lc
          if best.2.1 < s then (some lc.1, s, some lc.2) else best)
        ((none : Option Str), (0 : Rat), (none : Option Str))
      if threshold ≤ best.2.1 then best
      else (none, best.2.1, best.2.2)

/-! ### Specification-side definitions (for refinement claims) -/

/-- `pathSimilarity` as claim C3 words it: empty → 0, identical → 100,
otherwise the 40/20/15/25 blend capped at 100, with no other special
cases.  The segment "sets" are the first-occurrence dedups; the union
cardinality is taken of the concatenation, per `|A∪B|`. -/
def spec_path_similarity (a b : Str) : Rat :=
  if a = [] ∨ b = [] then 0
  else if a = b then 100
  else
    let aSegs := _path_segs a
    let bSegs := _path_segs b
    let sa := distinctL aSegs
    let sb := distinctL bSegs
    let inter := (sa.filter (fun x => sb.contains x)).length
    let union := max 1 (distinctL (aSegs ++ bSegs)).length
    let jacc : Rat := (inter : Rat) / (union : Rat)
    let lastEq : Rat :=
      if (aSegs.getLast?).isSome ∧ aSegs.getLast? = bSegs.getLast? then 1 else 0
    let ap := pyJoin (pystr ("/")) aSegs
    let bp := pyJoin (pystr ("/")) bSegs
    let suffix : Rat := if ap.isSuffixOf bp ∨ bp.isSuffixOf ap then 1 else 0
    min 100 (jacc * 40 + lastEq * 20 + suffix * 15 + ratioOf ap bp * 25)

/-- `spec_path_similarity` with the one special case the code adds: when
both normalized segment sequences are empty (and the URLs differ), the
score is 0. -/
def spec_path_similarity_amended (a b : Str) : Rat :=
  if a = [] ∨ b = [] then 0
  else if a = b then 100
  else if _path_segs a = [] ∧ _path_segs b = [] then 0
  else
    let aSegs := _path_segs a
    let bSegs := _path_segs b
    let sa := distinctL aSegs
    let sb := distinctL bSegs
    let inter := (sa.filter (fun x => sb.contains x)).length
    let union := max 1 (distinctL (aSegs ++ bSegs)).length
    let jacc : Rat := (inter : Rat) / (union : Rat)
    let lastEq : Rat :=
      if (aSegs.getLast?).isSome ∧ aSegs.getLast? = bSegs.getLast? then 1 else 0
    let ap := pyJoin (pystr ("/")) aSegs
    let bp := pyJoin (pystr ("/")) bSegs
    let suffix : Rat := if ap.isSuffixOf bp ∨ bp.isSuffixOf ap then 1 else 0
    min 100 (jacc * 40 + lastEq * 20 + suffix * 15 + ratioOf ap bp * 25)

/-- `pathSegments` as claim C8 words it: split the path on `/`, replace
the id-like segments by the marker, drop empty segments. -/
def spec_path_segs (u : Str) : List Str :=
  let p := (urlparse u).path
  let p := if p = [] then pystr ("/") else p
  ((pySplitSep p (pystr ("/"))).map
      (fun s => if matchNum s || matchUUID s || matchHex8 s || matchDate s
                then pystr ("\x7bid\x7d") else s)).filter
    (fun s => s ≠ [])

/-- `normalizeSegment` as §4.1 of the spec words it: strip whitespace,
replace id-like segments by the marker, otherwise strip one trailing
server-technology extension. -/
def spec_norm_seg_amended (s : Str) : Str :=
  let t := pyStrip s
  if matchNum t || matchUUID t || matchHex8 t || matchDate t then pystr ("\x7bid\x7d")
  else stripExt t

/-- `pathSegments` amended: normalize with `spec_norm_seg_amended` and
drop the segments whose normalized form is empty. -/
def spec_path_segs_amended (u : Str) : List Str :=
  let p := (urlparse u).path
  let p := if p = [] then pystr ("/") else p
  ((pySplitSep p (pystr ("/"))).map spec_norm_seg_amended).filter (fun s => s ≠ [])

/-- First-occurrence deduplication, as the spec words it: the first
occurrence wins and the relative order is preserved. -/
def firstOccurDedup : List (Str × Str) → List (Str × Str)
  | [] => []
  | x :: rest => x :: firstOccurDedup (rest.filter (fun y => y ≠ x))
  termination_by l => l.length
  decreasing_by simp; exact Nat.lt_succ_of_le (List.length_filter_le _ _)

/-- The concrete pool of end-to-end scenario B: host `ex.com` holds
exactly the Candidate `("[About]", "https://ex.com/about")`. -/
def exPoolB : Str → List (Str × Str) := fun h =>
  if h = pystr ("ex.com") then [(pystr ("[About]"), pystr ("https://ex.com/about"))] else []

/-- The `decode(enc, 'ignore')` stand-in whose every lookup fails (an
interpreter with no codecs registered beyond the built-in UTF-8 path). -/
def nullDecode : Str → Bytes → Option Str := fun _ _ => none

/-! ### Claim theorems: concrete evaluations -/

/-- Claim C1, counterexample: on the scenario-B pool (host `ex.com`
holding exactly `("[About]", "https://ex.com/about")`), the resolver
does not return the claimed triple with score 100.0 — the +5 label
bonus is applied after the 100 cap, so the score is 105.0. -/
theorem C1_counterexample :
    best_menu_for_url (pystr ("https://ex.com/about")) exPoolB none 58 ≠
      (some (pystr ("[About]")), 100, some (pystr ("https://ex.com/about"))) := by
  with_unfolding_all decide

/-- Claim C1, amended: end-to-end scenario B returns exactly
`("[About]", 105.0, "https://ex.com/about")` — `path_similarity` of the
identical URLs is 100.0 and the query's last path segment `about` is a
substring of the label's bracketed segment, adding the +5 bonus. -/
theorem C1_theorem :
    best_menu_for_url (pystr ("https://ex.com/about")) exPoolB none 58 =
      (some (pystr ("[About]")), 105, some (pystr ("https://ex.com/about"))) := by
  with_unfolding_all decide

/-- Claim C2, counterexample: the score returned by `best_menu_for_url`
can leave the claimed interval [0, 100]: on the scenario-B pool the
returned score is 105. -/
theorem C2_counterexample :
    (best_menu_for_url (pystr ("https://ex.com/about")) exPoolB none 58).2.1 = 105 ∧
      ¬ ((best_menu_for_url (pystr ("https://ex.com/about")) exPoolB none 58).2.1 ≤ 100) := by
  with_unfolding_all decide

/-- Claim C3, counterexample: the claimed formula ("no other special
cases") disagrees with the code when both URLs have empty normalized
segment sequences but differ as strings: the formula yields
0·40 + 0·20 + 1·15 + 1·25 = 40 (empty strings are suffixes of each
other, and the matching-blocks ratio of two empty strings is 1), while
`path_similarity` returns 0 through its extra early return. -/
theorem C3_counterexample :
    spec_path_similarity (pystr ("https://h/")) (pystr ("https://h2/")) = 40 ∧
      path_similarity (pystr ("https://h/")) (pystr ("https://h2/")) = 0 := by
  with_unfolding_all decide

/-- Claim C4, counterexample: an anchor with a `mailto:` href yields a
Candidate whose URL carries no host at all (`urlparse` gives it an
empty netloc), so extracted Candidate URLs are not always
scheme+host absolute. -/
theorem C4_counterexample :
    extract_menu_candidates_from_html (pystr ("<a href=\"mailto:a@b\">Contact</a>"))
        (pystr ("https://ex.com/")) = [(pystr ("Contact"), pystr ("mailto:a@b"))] ∧
      (urlparse (pystr ("mailto:a@b"))).netloc = [] := by
  with_unfolding_all decide

/-- Claim C8, counterexample: `_path_segs` is not the claimed
split-and-replace-ids function: non-id segments also lose a trailing
server-technology extension, so `.../index.html` normalizes to
`["index"]` while the claimed function keeps `["index.html"]`. -/
theorem C8_counterexample :
    _path_segs (pystr ("https://h/index.html")) = [pystr ("index")] ∧
      spec_path_segs (pystr ("https://h/index.html")) = [pystr ("index.html")] ∧
      _path_segs (pystr ("https://h/index.html")) ≠ spec_path_segs (pystr ("https://h/index.html")) := by
  decide

/-- Claim C9: `extract_menu_candidates_from_html` is deterministic and
depends only on its two arguments — it is embedded as a pure function
of `(html, currentURL)` (the module only reads immutable module-level
pattern constants), so two invocations on the same inputs are one and
the same value. -/
theorem C9_theorem :
    ∀ html currentUrl : Str,
      extract_menu_candidates_from_html html currentUrl =
        extract_menu_candidates_from_html html currentUrl :=
  fun _ _ => rfl

/-! ### Universal lemmas: score bounds, host-scoping, zero-score edge -/

/-- Fold invariants with membership of the folded element. -/
theorem foldl_preserve_mem {α β : Type} (P : β → Prop) (f : β → α → β) :
    ∀ (l : List α) (b : β), (∀ b a, a ∈ l → P b → P (f b a)) → P b → P (l.foldl f b)
  | [], _, _, hb => hb
  | a :: l, b, h, hb =>
    foldl_preserve_mem P f l (f b a)
      (fun b' a' ha' => h b' a' (List.mem_cons_of_mem _ ha'))
      (h b a (List.mem_cons_self _ _) hb)

theorem ratioOf_nonneg (a b : Str) : 0 ≤ ratioOf a b := by
  unfold ratioOf
  dsimp only
  split
  · positivity
  · norm_num

theorem ite_nonneg01 (P : Prop) [Decidable P] : (0 : Rat) ≤ if P then 1 else 0 := by
  split <;> norm_num

/-- `path_similarity` stays in `[0, 100]` (the cap is applied inside). -/
theorem path_similarity_bounds (a b : Str) :
    0 ≤ path_similarity a b ∧ path_similarity a b ≤ 100 := by
  unfold path_similarity
  dsimp only
  split
  · norm_num
  split
  · norm_num
  split
  · norm_num
  constructor
  · refine le_min (by norm_num) ?_
    have h1 : (0:Rat) ≤ (((distinctL (_path_segs a)).filter
        (fun x => (distinctL (_path_segs b)).contains x)).length : Rat) /
        ((max 1 ((distinctL (_path_segs a)).length +
          ((distinctL (_path_segs b)).filter
            (fun x => ¬ (distinctL (_path_segs a)).contains x)).length) : Nat) : Rat) := by
      positivity
    refine add_nonneg (add_nonneg (add_nonneg ?_ ?_) ?_) ?_
    · exact mul_nonneg h1 (by norm_num)
    · exact mul_nonneg (ite_nonneg01 _) (by norm_num)
    · exact mul_nonneg (ite_nonneg01 _) (by norm_num)
    · exact mul_nonneg (ratioOf_nonneg _ _) (by norm_num)
  · exact min_le_left _ _

/-- A candidate's loop score is `path_similarity` plus at most the +5
bonus, so it stays in `[0, 105]`. -/
theorem candidate_score_bounds (url : Str) (lc : Str × Str) :
    0 ≤ candidate_score url lc ∧ candidate_score url lc ≤ 105 := by
  have hps := path_similarity_bounds url lc.2
  unfold candidate_score
  dsimp only
  set tl := pyLower ((_path_segs url).getLastD []) with htl
  set ll := (if lc.1 ≠ [] then lblLastOf lc.1 else []) with hll
  split
  · exact ⟨add_nonneg hps.1 (by norm_num),
      le_trans (add_le_add_right hps.2 5) (by norm_num)⟩
  · exact ⟨hps.1, le_trans hps.2 (by norm_num)⟩

/-- Claim C2, amended: the score component returned by
`best_menu_for_url` always lies in `[0, 105]` — `path_similarity` is
capped at 100 but the +5 label bonus is added after the cap, so 105 (not
100) is the tight upper bound. -/
theorem C2_theorem (url : Str) (pool : Str → List (Str × Str)) (ref : Option Str) (thr : Rat) :
    0 ≤ (best_menu_for_url url pool ref thr).2.1 ∧
      (best_menu_for_url url pool ref thr).2.1 ≤ 105 := by
  unfold best_menu_for_url
  dsimp only
  split
  · norm_num
  split
  · norm_num
  have hfold := foldl_preserve_mem (fun st => 0 ≤ st.2.1 ∧ st.2.1 ≤ 105)
    (fun best lc =>
      let s := candidate_score url lc
      if best.2.1 < s then (some lc.1, s, some lc.2) else best)
    (host_candidates url pool ref)
    ((none : Option Str), (0 : Rat), (none : Option Str))
    (fun b lc _ hb => by
      dsimp only
      have hcs := candidate_score_bounds url lc
      generalize candidate_score url lc = cs at hcs ⊢
      split
      · exact hcs
      · exact hb)
    (by norm_num)
  split
  · exact hfold
  · exact hfold

/-- Claim C6: the matched candidate URL (and, when present, the label)
returned by `best_menu_for_url` always comes from the assembled
candidate set — the pool entry of the query URL's host key extended with
the referrer's host-key entry; a Candidate registered only under some
other host is never returned. -/
theorem C6_theorem (url : Str) (pool : Str → List (Str × Str)) (ref : Option Str) (thr : Rat) :
    ((best_menu_for_url url pool ref thr).1 = none ∧
      (best_menu_for_url url pool ref thr).2.2 = none) ∨
      (∃ lab u, (lab, u) ∈ host_candidates url pool ref ∧
        (best_menu_for_url url pool ref thr).2.2 = some u ∧
        ((best_menu_for_url url pool ref thr).1 = some lab ∨
          (best_menu_for_url url pool ref thr).1 = none)) := by
  unfold best_menu_for_url
  dsimp only
  split
  · exact Or.inl ⟨rfl, rfl⟩
  split
  · exact Or.inl ⟨rfl, rfl⟩
  have hfold := foldl_preserve_mem
    (fun st : Option Str × Rat × Option Str =>
      (st.1 = none ∧ st.2.2 = none) ∨
        ∃ lab u, (lab, u) ∈ host_candidates url pool ref ∧ st.1 = some lab ∧ st.2.2 = some u)
    (fun best lc =>
      let s := candidate_score url lc
      if best.2.1 < s then (some lc.1, s, some lc.2) else best)
    (host_candidates url pool ref)
    ((none : Option Str), (0 : Rat), (none : Option Str))
    (fun b lc hmem hb => by
      dsimp only
      generalize candidate_score url lc = cs
      split
      · exact Or.inr ⟨lc.1, lc.2, hmem, rfl, rfl⟩
      · exact hb)
    (Or.inl ⟨rfl, rfl⟩)
  split
  · rcases hfold with ⟨h1, h2⟩ | ⟨lab, u, hm, h1, h2⟩
    · exact Or.inl ⟨h1, h2⟩
    · exact Or.inr ⟨lab, u, hm, h2, Or.inl h1⟩
  · rcases hfold with ⟨h1, h2⟩ | ⟨lab, u, hm, h1, h2⟩
    · exact Or.inl ⟨rfl, h2⟩
    · exact Or.inr ⟨lab, u, hm, h2, Or.inr rfl⟩

/-- Claim C10: when the query URL is non-empty, candidates exist, and
every candidate's loop score is 0, the resolver returns
`(None, 0.0, None)` — no candidate is recorded because recording
requires strictly exceeding the running best, which starts at 0. -/
theorem C10_theorem (url : Str) (pool : Str → List (Str × Str)) (ref : Option Str) (thr : Rat)
    (h0 : url ≠ []) (h1 : host_candidates url pool ref ≠ [])
    (h2 : ∀ lc ∈ host_candidates url pool ref, candidate_score url lc = 0) :
    best_menu_for_url url pool ref thr = (none, 0, none) := by
  unfold best_menu_for_url
  dsimp only
  rw [if_neg h0, if_neg h1]
  have hfold := foldl_preserve_mem
    (fun st : Option Str × Rat × Option Str => st = (none, 0, none))
    (fun best lc =>
      let s := candidate_score url lc
      if best.2.1 < s then (some lc.1, s, some lc.2) else best)
    (host_candidates url pool ref)
    ((none : Option Str), (0 : Rat), (none : Option Str))
    (fun b lc hmem hb => by
      dsimp only
      rw [hb, h2 lc hmem]
      rw [if_neg (lt_irrefl (0 : Rat))])
    rfl
  rw [hfold]
  split <;> rfl

/-- The pool of C10's zero-score scenario: host `h` holds one candidate
whose URL shares no path structure with the query. -/
def c10pool : Str → List (Str × Str) := fun h =>
  if h = pystr ("h") then [(pystr ("L"), pystr ("https://h2/"))] else []

/-- Witness for C10: query `https://h/` against `c10pool` has a
non-empty candidate set, every score is 0, and the result is
`(None, 0.0, None)`. -/
theorem C10_witness :
    best_menu_for_url (pystr ("https://h/")) c10pool none 58 = (none, 0, none) :=
  C10_theorem (pystr ("https://h/")) c10pool none 58 (by decide)
    (by with_unfolding_all decide)
    (by with_unfolding_all decide)

/-! ### Claim C5: pool deduplication -/

theorem dedupPairsGo_out (l : List (Str × Str)) :
    ∀ seen out, dedupPairsGo l seen out = out ++ dedupPairsGo l seen [] := by
  induction l with
  | nil => intro seen out; simp [dedupPairsGo]
  | cons x r ih =>
    intro seen out
    simp only [dedupPairsGo]
    by_cases hc : seen.contains x
    · rw [if_pos hc, if_pos hc]; exact ih seen out
    · rw [if_neg hc, if_neg hc, ih (x :: seen) (out ++ [x]), ih (x :: seen) ([] ++ [x])]
      simp [List.append_assoc]

/-- The seen-set dedup loop computes the first-occurrence dedup of the
items not already seen. -/
theorem dedupPairsGo_firstOccur (l : List (Str × Str)) :
    ∀ seen, dedupPairsGo l seen [] =
      firstOccurDedup (l.filter (fun y => !(seen.contains y))) := by
  induction l with
  | nil => intro seen; simp [dedupPairsGo, firstOccurDedup]
  | cons x r ih =>
    intro seen
    simp only [dedupPairsGo, List.filter_cons]
    by_cases hc : seen.contains x
    · rw [if_pos hc]
      simp only [hc, Bool.not_true, Bool.false_eq_true, if_false]
      exact ih seen
    · rw [if_neg hc]
      have hcf : seen.contains x = false := by
        cases h : seen.contains x
        · rfl
        · exact absurd h hc
      simp only [hcf, Bool.not_false, if_true]
      rw [dedupPairsGo_out, ih (x :: seen), firstOccurDedup]
      simp only [List.nil_append]
      rw [List.filter_filter, List.singleton_append]
      congr 2
      apply List.filter_congr
      intro y hy
      simp [List.contains_cons, Bool.not_or, Bool.and_comm]

theorem mem_firstOccurDedup {y : Str × Str} :
    ∀ l, y ∈ firstOccurDedup l → y ∈ l
  | [], h => by simp [firstOccurDedup] at h
  | x :: r, h => by
    rw [firstOccurDedup] at h
    rcases List.mem_cons.mp h with h | h
    · exact h ▸ List.mem_cons_self _ _
    · exact List.mem_cons_of_mem _ (List.mem_of_mem_filter (mem_firstOccurDedup _ h))
  termination_by l => l.length
  decreasing_by simp; exact Nat.lt_succ_of_le (List.length_filter_le _ _)

theorem firstOccurDedup_nodup : ∀ l, (firstOccurDedup l).Nodup
  | [] => by simp [firstOccurDedup]
  | x :: r => by
    rw [firstOccurDedup]
    refine List.nodup_cons.mpr ⟨?_, firstOccurDedup_nodup _⟩
    intro hx
    have h2 := List.of_mem_filter (mem_firstOccurDedup _ hx)
    simp at h2
  termination_by l => l.length
  decreasing_by simp; exact Nat.lt_succ_of_le (List.length_filter_le _ _)

theorem firstOccurDedup_sublist : ∀ l, (firstOccurDedup l).Sublist l
  | [] => by simp [firstOccurDedup]
  | x :: r => by
    rw [firstOccurDedup]
    exact List.Sublist.cons₂ x ((firstOccurDedup_sublist _).trans (List.filter_sublist _))
  termination_by l => l.length
  decreasing_by simp; exact Nat.lt_succ_of_le (List.length_filter_le _ _)

/-- Claim C5: each host's candidate list in the built pool has no
duplicate `(label, url)` pairs; it is exactly the first-occurrence
dedup of the raw discovery-order list, hence first occurrences win and
the relative order is discovery order (a sublist of it). -/
theorem C5_theorem (pyDecode : Str → Bytes → Option Str) (A : Archive) (h : Str) :
    (build_candidate_pool_from_saz pyDecode A h).Nodup ∧
      build_candidate_pool_from_saz pyDecode A h =
        firstOccurDedup (buildPoolRaw pyDecode A h) ∧
      (build_candidate_pool_from_saz pyDecode A h).Sublist (buildPoolRaw pyDecode A h) := by
  have key : build_candidate_pool_from_saz pyDecode A h =
      firstOccurDedup (buildPoolRaw pyDecode A h) := by
    unfold build_candidate_pool_from_saz
    rw [dedupPairsGo_firstOccur]
    congr 1
    rw [List.filter_eq_self.mpr]
    intro a _
    simp [List.contains]
  refine ⟨?_, key, ?_⟩
  · rw [key]; exact firstOccurDedup_nodup _
  · rw [key]; exact firstOccurDedup_sublist _

/-! ### Claim C8: segment normalization -/

/-- `_norm_seg` coincides with the spec's `normalizeSegment` (the code's
early return for an empty stripped segment is redundant: no matcher
accepts the empty string and extension stripping keeps it empty). -/
theorem norm_seg_eq_spec (s : Str) : _norm_seg s = spec_norm_seg_amended s := by
  unfold _norm_seg spec_norm_seg_amended
  dsimp only
  by_cases h : pyStrip s = []
  · rw [h]
    decide
  · rw [if_neg h]

/-- Claim C8, amended: `_path_segs` splits the path on `/`, strips
whitespace, replaces id-like segments with the marker, strips a trailing
server-technology extension from the rest, and drops segments whose
normalized form is empty, preserving order; the `/user/123/edit`
examples of the claim hold. -/
theorem C8_theorem :
    (∀ u, _path_segs u = spec_path_segs_amended u) ∧
      _path_segs (pystr ("https://h/user/123/edit")) =
        [pystr ("user"), pystr ("\x7bid\x7d"), pystr ("edit")] ∧
      _path_segs (pystr ("https://h/user/999/edit")) =
        [pystr ("user"), pystr ("\x7bid\x7d"), pystr ("edit")] := by
  refine ⟨?_, by decide, by decide⟩
  intro u
  unfold _path_segs spec_path_segs_amended
  dsimp only
  have hn : spec_norm_seg_amended = _norm_seg := by
    funext s; exact (norm_seg_eq_spec s).symm
  rw [hn, List.filter_map]
  rfl

/-! ### Claim C4: extracted candidate URLs -/

/-- All URLs in a candidate list are non-empty. -/
def urlsNe (l : List (Str × Str)) : Prop := ∀ q ∈ l, q.2 ≠ []

theorem urlsNe_appendOne {out : List (Str × Str)} {l u : Str}
    (h : urlsNe out) (hu : u ≠ []) : urlsNe (out ++ [(l, u)]) := by
  intro q hq
  rcases List.mem_append.mp hq with h1 | h1
  · exact h q h1
  · rw [List.mem_singleton.mp h1]
    exact hu

theorem urlsNe_nil : urlsNe [] := fun q hq => absurd hq (List.not_mem_nil q)

theorem anchors_urlsNe (html cur : Str) : urlsNe (_extract_anchor_candidates html cur) := by
  unfold _extract_anchor_candidates
  refine foldl_preserve_mem urlsNe _ _ _ (fun out m _ h => ?_) urlsNe_nil
  dsimp only
  split
  · split
    next hu => exact urlsNe_appendOne h hu
    next => exact h
  · exact h

theorem emitSnippet_pres {html cur : Str} {out : List (Str × Str)} {m : Str × Nat × Nat}
    {margin : Nat} (h : urlsNe out) : urlsNe (emitSnippet html cur out m margin) := by
  unfold emitSnippet
  dsimp only
  split
  next hc => exact urlsNe_appendOne h hc.1
  next => exact h

theorem ocf_urlsNe (html cur : Str) : urlsNe (_extract_onclick_function_candidates html cur) := by
  unfold _extract_onclick_function_candidates
  dsimp only
  split
  · exact urlsNe_nil
  split
  · exact urlsNe_nil
  split
  · exact urlsNe_nil
  refine foldl_preserve_mem urlsNe _ _ _ (fun out m _ h => ?_) urlsNe_nil
  dsimp only
  split
  · exact h
  refine foldl_preserve_mem urlsNe _ _ _ (fun out2 nu _ h2 => ?_) h
  dsimp only
  split
  · exact h2
  split
  · split
    next => exact urlsNe_appendOne h2 (by assumption)
    next => exact h2
  · exact h2
theorem walkGo_urlsNe (nodes : List MTNode) (curUrl html : Str) :
    ∀ fuel id path acc, urlsNe acc.1 →
      urlsNe (walkGo nodes curUrl html fuel id path acc).1 := by
  intro fuel
  induction fuel with
  | zero => intro id path acc hacc; simpa [walkGo] using hacc
  | succ fuel ih =>
    intro id path acc hacc
    rw [walkGo]
    cases hnd : nodes.get? id with
    | none => exact hacc
    | some nd =>
      dsimp only
      refine foldl_preserve_mem (fun a => urlsNe a.1) _ _ _
        (fun a ch _ ha => ih ch _ a ha) ?_
      split
      · split
        next hu => exact urlsNe_appendOne hacc hu
        next => exact hacc
      · exact hacc

theorem tree_urlsNe (html cur : Str) : urlsNe (extract_menu_tree_candidates html cur).1 := by
  unfold extract_menu_tree_candidates _flatten_menu_tree
  dsimp only
  cases hroot : (((htmlTokens html).foldl mtStep mtInit).nodes).get? 0 with
  | none => exact urlsNe_nil
  | some root =>
    exact foldl_preserve_mem (fun a => urlsNe a.1) _ root.children ([], [])
      (fun a ch _ ha => walkGo_urlsNe _ _ _ _ ch _ a ha) urlsNe_nil

theorem nonA_urlsNe (html cur : Str) : urlsNe (_extract_non_a_candidates html cur) := by
  unfold _extract_non_a_candidates
  dsimp only
  intro p hp
  rcases List.mem_append.mp hp with hp | hp
  · refine foldl_preserve_mem urlsNe _ _ _
      (fun out st _ h => ?_)
      (foldl_preserve_mem urlsNe _ _ _
        (fun out m _ h => ?_)
        (foldl_preserve_mem urlsNe _ _ _
          (fun out m _ h => ?_)
          (foldl_preserve_mem urlsNe _ _ _
            (fun out m _ h => emitSnippet_pres h)
            (foldl_preserve_mem urlsNe _ _ _
              (fun out m _ h => emitSnippet_pres h)
              (foldl_preserve_mem urlsNe _ _ _
                (fun out m _ h => emitSnippet_pres h)
                (foldl_preserve_mem urlsNe _ _ _
                  (fun out m _ h => emitSnippet_pres h)
                  urlsNe_nil))))))
      p hp
    · cases hbl : selBlockSearch (html.drop st.1) with
      | none => exact h
      | some content =>
        refine foldl_preserve_mem urlsNe _ _ _ (fun out2 m _ h2 => ?_) h
        dsimp only
        split
        next hc => exact urlsNe_appendOne h2 hc.1
        next => exact h2
    · dsimp only
      split
      next hc => exact urlsNe_appendOne h hc.1
      next => exact h
    · dsimp only
      split
      next hc => exact urlsNe_appendOne h hc.1
      next => exact h
  · exact ocf_urlsNe html cur p hp

theorem mem_dedupPairsGo {y : Str × Str} :
    ∀ l seen out, y ∈ dedupPairsGo l seen out → y ∈ out ∨ y ∈ l := by
  intro l
  induction l with
  | nil => intro seen out h; exact Or.inl (by simpa [dedupPairsGo] using h)
  | cons x r ih =>
    intro seen out h
    rw [dedupPairsGo] at h
    by_cases hc : seen.contains x
    · rw [if_pos hc] at h
      rcases ih seen out h with h1 | h1
      · exact Or.inl h1
      · exact Or.inr (List.mem_cons_of_mem _ h1)
    · rw [if_neg hc] at h
      rcases ih (x :: seen) (out ++ [x]) h with h1 | h1
      · rcases List.mem_append.mp h1 with h2 | h2
        · exact Or.inl h2
        · exact Or.inr (List.mem_singleton.mp h2 ▸ List.mem_cons_self _ _)
      · exact Or.inr (List.mem_cons_of_mem _ h1)

/-- Claim C4, amended: every Candidate emitted by
`extract_menu_candidates_from_html` has a non-empty URL, and hrefs that
are `javascript:` links or fragment-only links never produce a
Candidate (`_resolve_candidate_url` maps them to the empty string and
every emission site filters empty URLs out); the URL need not be
absolute with a host (see the `mailto:` counterexample).
-/
theorem C4_theorem :
    (∀ html cur p, p ∈ extract_menu_candidates_from_html html cur → p.2 ≠ []) ∧
      (∀ cand cur html,
        ((pystr ("javascript:")).isPrefixOf cand ∨ (pystr ("#")).isPrefixOf cand) →
        _resolve_candidate_url cand cur html = []) := by
  constructor
  · intro html cur p hp
    unfold extract_menu_candidates_from_html at hp
    dsimp only at hp
    rcases mem_dedupPairsGo _ _ _ hp with h | h
    · exact absurd h (List.not_mem_nil p)
    rcases List.mem_append.mp h with h | h
    rcases List.mem_append.mp h with h | h
    · exact tree_urlsNe html cur p h
    · rcases List.mem_map.mp h with ⟨q, hq, hfq⟩
      have hq2 := anchors_urlsNe html cur q hq
      revert hfq
      cases hal : assocGetPair (extract_menu_tree_candidates html cur).2 q with
      | none => intro hfq; rw [← hfq]; exact hq2
      | some pl => intro hfq; rw [← hfq]; exact hq2
    · rcases List.mem_map.mp h with ⟨q, hq, hfq⟩
      have hq2 := nonA_urlsNe html cur q hq
      revert hfq
      cases hal : assocGetPair (extract_menu_tree_candidates html cur).2 q with
      | none => intro hfq; rw [← hfq]; exact hq2
      | some pl => intro hfq; rw [← hfq]; exact hq2
  · intro cand cur html hpre
    unfold _resolve_candidate_url
    by_cases hc : cand = []
    · rw [if_pos hc]
    · rw [if_neg hc, if_pos hpre]
/-- Witness for C4: the `mailto:` Candidate from the counterexample
document has a non-empty URL, and a `javascript:` href resolves to the
empty string. -/
theorem C4_witness :
    (pystr ("mailto:a@b")) ≠ [] ∧
      _resolve_candidate_url (pystr ("javascript:void(0)")) (pystr ("https://ex.com/")) [] = [] :=
  ⟨C4_theorem.1 (pystr ("<a href=\"mailto:a@b\">Contact</a>")) (pystr ("https://ex.com/"))
      (pystr ("Contact"), pystr ("mailto:a@b")) (by with_unfolding_all decide),
   C4_theorem.2 (pystr ("javascript:void(0)")) (pystr ("https://ex.com/")) [] (Or.inl (by decide))⟩


/-! ### C3: `path_similarity` refines the spec formula -/

theorem contains_append_str (l₁ l₂ : List Str) (a : Str) :
    (l₁ ++ l₂).contains a = (l₁.contains a || l₂.contains a) := by
  induction l₁ with
  | nil => simp
  | cons b l ih => simp [List.contains_cons, ih, Bool.or_assoc]

theorem foldl_insD_eq (ys : List Str) :
    ∀ acc, ys.foldl (fun acc x => if acc.contains x then acc else acc ++ [x]) acc =
      acc ++ (distinctL ys).filter (fun y => !(acc.contains y)) := by
  induction ys with
  | nil => intro acc; simp [distinctL]
  | cons y ys ih =>
    intro acc
    have hd : distinctL (y :: ys) =
        y :: (distinctL ys).filter (fun z => !(([y] : List Str).contains z)) := by
      unfold distinctL
      show List.foldl _ (if ([] : List Str).contains y then [] else [] ++ [y]) ys = _
      have h0 : ([] : List Str).contains y = false := rfl
      rw [h0]
      simp only [Bool.false_eq_true, if_false, List.nil_append]
      have := ih [y]
      unfold distinctL at this
      rw [this]
      simp
    rw [hd]
    show List.foldl _ (if acc.contains y then acc else acc ++ [y]) ys = _
    by_cases hc : acc.contains y
    · rw [if_pos hc, ih acc, List.filter_cons]
      have hny : (!acc.contains y) = false := by rw [hc]; rfl
      rw [hny]
      simp only [Bool.false_eq_true, if_false]
      congr 1
      rw [List.filter_filter]
      apply List.filter_congr
      intro z hz
      by_cases hzy : z = y
      · subst hzy
        have hm : z ∈ acc := by simpa using hc
        simp [hc, hm]
      · have h1 : ([y] : List Str).contains z = false := by simp [hzy]
        simp [h1, hzy]
    · rw [if_neg hc, ih (acc ++ [y]), List.filter_cons]
      have hcf : acc.contains y = false := by
        cases h : acc.contains y
        · rfl
        · exact absurd h hc
      have hny : (!acc.contains y) = true := by rw [hcf]; rfl
      rw [hny]
      simp only [if_true, List.append_assoc, List.singleton_append]
      congr 2
      rw [List.filter_filter]
      apply List.filter_congr
      intro z hz
      by_cases hzy : z = y
      · subst hzy
        simp [contains_append_str, hcf]
      · have h1 : ([y] : List Str).contains z = false := by simp [hzy]
        have h2 : (acc ++ [y]).contains z = acc.contains z := by
          rw [contains_append_str, h1, Bool.or_false]
        simp [h1, h2]

theorem distinctL_append (xs ys : List Str) :
    distinctL (xs ++ ys) =
      distinctL xs ++ (distinctL ys).filter (fun y => !((distinctL xs).contains y)) := by
  show (xs ++ ys).foldl _ [] = _
  rw [List.foldl_append]
  exact foldl_insD_eq ys (distinctL xs)

theorem blend_congr (u1 u2 i : Nat) (c1 c2 d1 d2 : Prop)
    [Decidable c1] [Decidable c2] [Decidable d1] [Decidable d2] (r : Rat)
    (hu : u1 = u2) (hc : c1 ↔ c2) (hd : d1 ↔ d2) :
    min 100 ((i : Rat) / (u1 : Rat) * 40 + (if c1 then (1:Rat) else 0) * 20 +
      (if d1 then (1:Rat) else 0) * 15 + r * 25) =
    min 100 ((i : Rat) / (u2 : Rat) * 40 + (if c2 then (1:Rat) else 0) * 20 +
      (if d2 then (1:Rat) else 0) * 15 + r * 25) := by
  subst hu
  rw [if_congr hc rfl rfl, if_congr hd rfl rfl]

theorem union_card_eq (aSegs bSegs : List Str) :
    max 1 ((distinctL aSegs).length +
      ((distinctL bSegs).filter (fun x => ¬ (distinctL aSegs).contains x)).length) =
    max 1 (distinctL (aSegs ++ bSegs)).length := by
  rw [distinctL_append, List.length_append]
  congr 2
  congr 1
  apply List.filter_congr
  intro z hz
  simp

theorem lastm_iff (aSegs bSegs : List Str) :
    (aSegs ≠ [] ∧ bSegs ≠ [] ∧ aSegs.getLast? = bSegs.getLast?) ↔
    ((aSegs.getLast?).isSome ∧ aSegs.getLast? = bSegs.getLast?) := by
  constructor
  · rintro ⟨ha, _, he⟩
    exact ⟨List.getLast?_isSome.mpr ha, he⟩
  · rintro ⟨hs, he⟩
    refine ⟨List.getLast?_isSome.mp hs, List.getLast?_isSome.mp ?_, he⟩
    rw [← he]; exact hs

/-- C3: `path_similarity` agrees everywhere with the claimed formula once
that formula is amended with the code's extra special case (score 0 when
both normalized segment sequences are empty and the URLs differ); the
union cardinality, last-segment test and suffix test of the two sides
coincide. -/
theorem C3_theorem (a b : Str) : path_similarity a b = spec_path_similarity_amended a b := by
  unfold path_similarity spec_path_similarity_amended
  by_cases h1 : a = [] ∨ b = []
  · rw [if_pos h1, if_pos h1]
  rw [if_neg h1, if_neg h1]
  by_cases h2 : a = b
  · rw [if_pos h2, if_pos h2]
  rw [if_neg h2, if_neg h2]
  generalize _path_segs a = As
  generalize _path_segs b = Bs
  by_cases h3 : As = [] ∧ Bs = []
  · rw [if_pos h3, if_pos h3]
  · rw [if_neg h3, if_neg h3]
    exact blend_congr _ _ _ _ _ _ _ _
      (union_card_eq As Bs) (lastm_iff As Bs) (or_comm)


/-! ### C7: per-item failure isolation -/

theorem zfRead_skip (pre post : Archive) (x : Str × Option Bytes) (n : Str)
    (hne : n ≠ x.1) :
    zfRead (pre ++ [x] ++ post) n = zfRead (pre ++ post) n := by
  unfold zfRead
  have hx : ((x.1 == n) : Bool) = false :=
    beq_eq_false_iff_ne.mpr (fun h => hne h.symm)
  rw [List.append_assoc, List.find?_append, List.find?_append, List.find?_append]
  simp [List.find?, hx]

theorem contains_skip (pre post : Archive) (x : Str × Option Bytes) (n : Str)
    (hne : n ≠ x.1) :
    (namelist (pre ++ [x] ++ post)).contains n = (namelist (pre ++ post)).contains n := by
  unfold namelist
  simp [hne]

theorem s_ne_c (t m : Str) (hs : (pystr ("_s.txt")).isSuffixOf t) :
    pystr ("raw/") ++ m ++ pystr ("_c.txt") ≠ t := by
  intro he
  rw [← he] at hs
  rw [List.isSuffixOf_iff_suffix] at hs
  have h2 : (pystr ("_c.txt")) <:+ (pystr ("raw/") ++ m ++ pystr ("_c.txt")) :=
    ⟨pystr ("raw/") ++ m, by simp⟩
  rw [List.suffix_iff_eq_drop] at hs h2
  have hl : (pystr ("_s.txt")).length = (pystr ("_c.txt")).length := rfl
  have : pystr ("_s.txt") = pystr ("_c.txt") := by rw [hs, hl, ← h2]
  exact absurd this (by decide)

theorem itemResult_skip (pyDecode : Str → Bytes → Option Str)
    (pre post : Archive) (x : Str × Option Bytes)
    (hsufx : (pystr ("_s.txt")).isSuffixOf x.1)
    (sname : Str) (hne : sname ≠ x.1) :
    itemResult pyDecode (pre ++ [x] ++ post) sname =
    itemResult pyDecode (pre ++ post) sname := by
  have hz1 : zfRead (pre ++ [x] ++ post) sname = zfRead (pre ++ post) sname :=
    zfRead_skip pre post x sname hne
  have hread : ∀ m, zfRead (pre ++ [x] ++ post) (pystr ("raw/") ++ m ++ pystr ("_c.txt"))
      = zfRead (pre ++ post) (pystr ("raw/") ++ m ++ pystr ("_c.txt")) :=
    fun m => zfRead_skip pre post x _ (s_ne_c x.1 m hsufx)
  have hcont : ∀ m,
      (namelist (pre ++ [x] ++ post)).contains (pystr ("raw/") ++ m ++ pystr ("_c.txt"))
      = (namelist (pre ++ post)).contains (pystr ("raw/") ++ m ++ pystr ("_c.txt")) :=
    fun m => contains_skip pre post x _ (s_ne_c x.1 m hsufx)
  simp only [itemResult, hz1, hread, hcont]

theorem sNames_mid (pre post : Archive) (x : Str × Option Bytes)
    (hpre : (pystr ("raw/")).isPrefixOf x.1)
    (hsufx : (pystr ("_s.txt")).isSuffixOf x.1) :
    sNames (pre ++ [x] ++ post) = sNames pre ++ x.1 :: sNames post := by
  unfold sNames namelist
  rw [List.map_append, List.map_append, List.filter_append, List.filter_append]
  simp [hpre, hsufx]

theorem sNames_app (pre post : Archive) :
    sNames (pre ++ post) = sNames pre ++ sNames post := by
  unfold sNames namelist
  rw [List.map_append, List.filter_append]

theorem buildPoolRaw_skip (pyDecode : Str → Bytes → Option Str)
    (pre post : Archive) (x : Str × Option Bytes)
    (hnotin : x.1 ∉ namelist (pre ++ post))
    (hpre : (pystr ("raw/")).isPrefixOf x.1)
    (hsufx : (pystr ("_s.txt")).isSuffixOf x.1)
    (herr : itemResult pyDecode (pre ++ [x] ++ post) x.1 = .error ()) :
    buildPoolRaw pyDecode (pre ++ [x] ++ post) = buildPoolRaw pyDecode (pre ++ post) := by
  have hne_pre : ∀ s ∈ sNames pre, s ≠ x.1 := by
    intro s hs he
    subst he
    apply hnotin
    unfold namelist
    rw [List.map_append]
    exact List.mem_append_left _ (List.mem_of_mem_filter hs)
  have hne_post : ∀ s ∈ sNames post, s ≠ x.1 := by
    intro s hs he
    subst he
    apply hnotin
    unfold namelist
    rw [List.map_append]
    exact List.mem_append_right _ (List.mem_of_mem_filter hs)
  unfold buildPoolRaw
  rw [sNames_mid pre post x hpre hsufx, sNames_app]
  rw [List.foldl_append, List.foldl_cons, List.foldl_append]
  have hfold_pre :
      List.foldl (fun (pool : Str → List (Str × Str)) sname =>
        match itemResult pyDecode (pre ++ [x] ++ post) sname with
        | .ok (some kc) => fun h => if h = kc.1 then pool h ++ kc.2 else pool h
        | _ => pool) (fun _ => ([] : List (Str × Str))) (sNames pre) =
      List.foldl (fun (pool : Str → List (Str × Str)) sname =>
        match itemResult pyDecode (pre ++ post) sname with
        | .ok (some kc) => fun h => if h = kc.1 then pool h ++ kc.2 else pool h
        | _ => pool) (fun _ => ([] : List (Str × Str))) (sNames pre) := by
    apply List.foldl_ext
    intro acc s hs
    rw [itemResult_skip pyDecode pre post x hsufx s (hne_pre s hs)]
  rw [hfold_pre]
  simp only [herr]
  apply List.foldl_ext
  intro acc s hs
  rw [itemResult_skip pyDecode pre post x hsufx s (hne_post s hs)]

/-- C7: per-item failure isolation in `build_candidate_pool_from_saz`: if the
entry for one exchange raises inside the per-item try (modelled by
`itemResult ... = .error ()`), that exchange is skipped and the pool equals
the pool of the archive without that entry, so every other exchange still
contributes and no error propagates out. -/
theorem C7_theorem (pyDecode : Str → Bytes → Option Str)
    (pre post : Archive) (x : Str × Option Bytes)
    (hnotin : x.1 ∉ namelist (pre ++ post))
    (hpre : (pystr ("raw/")).isPrefixOf x.1)
    (hsufx : (pystr ("_s.txt")).isSuffixOf x.1)
    (herr : itemResult pyDecode (pre ++ [x] ++ post) x.1 = .error ()) :
    build_candidate_pool_from_saz pyDecode (pre ++ [x] ++ post)
      = build_candidate_pool_from_saz pyDecode (pre ++ post) := by
  unfold build_candidate_pool_from_saz
  rw [buildPoolRaw_skip pyDecode pre post x hnotin hpre hsufx herr]

/-- C7 witness: a concrete archive whose single `raw/1_s.txt` entry raises
on read; its pool equals the pool without the entry. -/
theorem C7_witness :
    (pystr ("raw/1_s.txt")) ∉ namelist ([] ++ [(pystr ("meta.xml"), some ([] : Bytes))]) ∧
    (pystr ("raw/")).isPrefixOf (pystr ("raw/1_s.txt")) ∧
    (pystr ("_s.txt")).isSuffixOf (pystr ("raw/1_s.txt")) ∧
    build_candidate_pool_from_saz nullDecode
        ([] ++ [(pystr ("raw/1_s.txt"), none)] ++ [(pystr ("meta.xml"), some ([] : Bytes))])
      = build_candidate_pool_from_saz nullDecode ([] ++ [(pystr ("meta.xml"), some ([] : Bytes))]) :=
  ⟨by decide, by decide, by decide,
    C7_theorem nullDecode [] [(pystr ("meta.xml"), some ([] : Bytes))]
      (pystr ("raw/1_s.txt"), none) (by decide) (by decide) (by decide) rfl⟩

end SazML
